import Mathlib

/-!
The nacos-cli client: session, config exchange and bulk transfer codec.

A shallow embedding of `pkg/nacos/client.go` and `cmd/config.go`.

Go strings are modelled as lists of Unicode code points (`Str`).  Every
separator, prefix and suffix the code searches for is ASCII, so on valid
UTF-8 text the byte-level functions of package `strings` and their
code-point-level models below agree.
-/

namespace NacosCli

/-- Go `string`, as the list of its code points. -/
abbrev Str := List Char

/-! ## Package `strings` -/

/-- `strings.HasPrefix(s, p)`. -/
def HasPrefix (s p : Str) : Bool := p.isPrefixOf s

/-- `strings.HasSuffix(s, p)`. -/
def HasSuffix (s p : Str) : Bool := p.isSuffixOf s

/-- `strings.Contains(s, ".")` and friends, for a one-character needle. -/
def Contains (s : Str) (c : Char) : Bool := s.contains c

/-- `unicode.IsSpace`: the Latin-1 spaces and the code points with the
White_Space property. -/
def isSpace (c : Char) : Bool :=
  let n := c.toNat
  n == 0x09 || n == 0x0A || n == 0x0B || n == 0x0C || n == 0x0D || n == 0x20 ||
  n == 0x85 || n == 0xA0 || n == 0x1680 || (0x2000 ≤ n && n ≤ 0x200A) ||
  n == 0x2028 || n == 0x2029 || n == 0x202F || n == 0x205F || n == 0x3000

/-- `strings.TrimSpace`: leading and trailing white space removed. -/
def TrimSpace (s : Str) : Str :=
  ((s.dropWhile isSpace).reverse.dropWhile isSpace).reverse

/-- `unicode.ToLower` on one code point.  ASCII capitals are shifted; the two
non-ASCII code points whose lower case is ASCII (U+0130 and the Kelvin sign
U+212A) are mapped to it.  Every other non-ASCII code point lowers to a
non-ASCII code point and is left as it is: the result is only ever compared
with ASCII literals. -/
def toLowerRune (c : Char) : Char :=
  if 'A'.toNat ≤ c.toNat ∧ c.toNat ≤ 'Z'.toNat then Char.ofNat (c.toNat + 32)
  else if c.toNat = 0x130 then 'i'
  else if c.toNat = 0x212A then 'k'
  else c

/-- `strings.ToLower`. -/
def ToLower (s : Str) : Str := s.map toLowerRune

/-- `strings.Split(s, sep)` for a one-character separator: the pieces between
the separators, `[""]` for the empty string. -/
def Split (sep : Char) : Str → List Str
  | [] => [[]]
  | c :: cs =>
    if c = sep then [] :: Split sep cs
    else
      match Split sep cs with
      | [] => [[c]]
      | l :: ls => (c :: l) :: ls

/-- `strings.Join(elems, sep)` for a one-character separator. -/
def Join (sep : Char) : List Str → Str
  | [] => []
  | [l] => l
  | l :: ls => l ++ sep :: Join sep ls

/-- `strings.SplitN(s, sep, 2)` for a one-character separator: the text before
the first separator and all the text after it, or the string alone when it
holds no separator. -/
def SplitN2 (sep : Char) (s : Str) : List Str :=
  if s.contains sep then
    [s.takeWhile (fun c => c != sep), (s.dropWhile (fun c => c != sep)).drop 1]
  else [s]

/-! ## Package `path/filepath` (Unix) -/

/-- `os.IsPathSeparator`. -/
def IsPathSeparator (c : Char) : Bool := c == '/'

/-- `filepath.Ext`: the suffix from the final dot of the final element, empty
when that element has no dot.  The scan runs from the end of the path and
stops at a path separator. -/
def ExtRev : Str → Str → Str
  | [], _ => []
  | c :: rest, acc =>
    if IsPathSeparator c then []
    else if c = '.' then c :: acc
    else ExtRev rest (c :: acc)

/-- `filepath.Ext`. -/
def Ext (path : Str) : Str := ExtRev path.reverse []

/-- One element of the path handed to `filepath.Clean`, processed against the
elements kept so far (most recent first).  Empty and `.` elements are dropped,
`..` removes the last kept element when there is one to remove, is dropped at
the root, and is kept otherwise. -/
def cleanStep (rooted : Bool) (kept : List Str) (e : Str) : List Str :=
  if e = [] ∨ e = ['.'] then kept
  else if e = ['.', '.'] then
    match kept with
    | [] => if rooted then [] else [e]
    | top :: rest => if top = ['.', '.'] then e :: kept else rest
  else e :: kept

/-- `filepath.Clean`. -/
def Clean (path : Str) : Str :=
  if path = [] then ['.']
  else
    let rooted := path.head?.any IsPathSeparator
    let kept := ((Split '/' path).foldl (cleanStep rooted) []).reverse
    if rooted then '/' :: Join '/' kept
    else if kept = [] then ['.']
    else Join '/' kept

/-- `filepath.Join(dir, name)`: empty elements are ignored, the rest joined
with a separator and cleaned. -/
def FilepathJoin (dir name : Str) : Str :=
  if dir ≠ [] then Clean (dir ++ '/' :: name)
  else if name ≠ [] then Clean name
  else []

/-- `filepath.Base`: the last element of the path, trailing separators
removed first. -/
def Base (path : Str) : Str :=
  if path = [] then ['.']
  else
    let stripped := path.reverse.dropWhile IsPathSeparator
    let last := (stripped.takeWhile (fun c => !IsPathSeparator c)).reverse
    if last = [] then ['/'] else last

/-! ## Data model (`pkg/nacos/client.go`) -/

/-- `nacos.Config`; `Typ` is the field `Type`. -/
structure Config where
  DataID : Str
  Group : Str
  Content : Str
  Typ : Str
deriving DecidableEq, Repr

/-- `nacos.Client`. -/
structure Client where
  ServerURL : Str
  Username : Str
  Password : Str
  Namespace : Str
  Token : Str
  TokenExpiry : Int
deriving DecidableEq, Repr

/-- `nacos.LoginResponse`. -/
structure LoginResponse where
  AccessToken : Str
  TokenTtl : Int
  GlobalAdmin : Bool
deriving DecidableEq, Repr

set_option linter.dupNamespace false in
/-- `nacos.Namespace`; `Typ` is the field `Type`. -/
structure Namespace where
  Namespace : Str
  NamespaceShowName : Str
  NamespaceDesc : Str
  Quota : Int
  ConfigCount : Int
  Typ : Int
deriving DecidableEq, Repr

/-- The page `ListConfigs` parses its response into. -/
structure ConfigPage where
  TotalCount : Int
  PageNumber : Int
  PagesAvailable : Int
  PageItems : List Config
deriving DecidableEq, Repr

/-- The envelope `ListNamespaces` parses its response into. -/
structure NamespaceEnvelope where
  Code : Int
  Message : Str
  Data : List Namespace
deriving DecidableEq, Repr

/-! ## Errors -/

/-- An error value produced by a library (`net/http`, `io`, `os`,
`encoding/json`), kept as its text. -/
abbrev LibError := Str

/-- The errors the two packages build, one constructor for each `fmt.Errorf`
site, carrying the arguments of the format. -/
inductive Error where
  /-- a library error returned as it is -/
  | lib (cause : LibError)
  /-- Login: the request could not be created -/
  | loginRequest (cause : LibError)
  /-- Login: the request could not be sent -/
  | loginSend (cause : LibError)
  /-- Login: the response could not be read -/
  | loginRead (cause : LibError)
  /-- Login: status code other than 200, with the code and the body -/
  | loginStatus (status : Int) (body : Str)
  /-- Login: the response is not the login JSON -/
  | loginParse (cause : LibError) (body : Str)
  /-- Login: no access token in the response -/
  | loginNoToken
  /-- GetConfig: the request could not be sent -/
  | getSend (cause : LibError)
  /-- GetConfig: the configuration does not exist -/
  | configNotExist
  /-- PublishConfig: the request could not be sent -/
  | publishSend (cause : LibError)
  /-- PublishConfig: status code other than 200, with the code and the body -/
  | publishStatus (status : Int) (body : Str)
  /-- exportSingleConfig: the file could not be written -/
  | writeFile (cause : LibError)
  /-- importSingleFile: the file could not be read -/
  | readFile (cause : LibError)
  /-- importSingleFile: the file name is not of the form group@dataId -/
  | fileNameFormat (fileName : Str)
  /-- importSingleFile: PublishConfig failed -/
  | importPublish (cause : Error)
  /-- DeleteConfig: the request could not be sent -/
  | deleteSend (cause : LibError)
  /-- DeleteConfig: status code other than 200, with the code and the body -/
  | deleteStatus (status : Int) (body : Str)
  /-- ListConfigs: the request could not be sent -/
  | listSend (cause : LibError)
  /-- ListConfigs: status code other than 200, with the code and the body -/
  | listStatus (status : Int) (body : Str)
  /-- ListConfigs: the response is not the page JSON -/
  | listParse (cause : LibError) (body : Str)
  /-- ListNamespaces: the request could not be sent -/
  | namespacesSend (cause : LibError)
  /-- ListNamespaces: status code other than 200, with the code and the body -/
  | namespacesStatus (status : Int) (body : Str)
  /-- ListNamespaces: the response is not the envelope JSON -/
  | namespacesParse (cause : LibError) (body : Str)
  /-- ListNamespaces: the envelope carries a code other than 200; its message -/
  | apiFailed (message : Str)
  /-- CreateNamespace: the request could not be sent -/
  | createNamespaceSend (cause : LibError)
  /-- CreateNamespace: status code other than 200, with the code and the body -/
  | createNamespaceStatus (status : Int) (body : Str)
  /-- DeleteNamespace: the request could not be sent -/
  | deleteNamespaceSend (cause : LibError)
  /-- DeleteNamespace: status code other than 200, with the code and the body -/
  | deleteNamespaceStatus (status : Int) (body : Str)
deriving DecidableEq, Repr

/-! ## The HTTP transport and the file system (collaborators) -/

/-- `url.Values` with one value for each key, in the order of the `Set` calls.
The percent-encoding and key sorting of `Encode` are left out. -/
abbrev Values := List (Str × Str)

/-- The request an operation builds: method, URL up to the query, the query
and form values, and the headers set on it. -/
structure Request where
  method : Str
  url : Str
  query : Values
  form : Values
  header : List (Str × Str)
deriving DecidableEq, Repr

/-- What comes back for a request: `http.NewRequest` failed, or
`http.DefaultClient.Do` failed, or a response arrived with a status code and a
body; `readErr` is the error of `io.ReadAll` on that body, if any, and `body`
the bytes read. -/
inductive Exchange where
  | buildError (cause : LibError)
  | sendError (cause : LibError)
  | response (status : Int) (body : Str) (readErr : Option LibError)
deriving DecidableEq, Repr

/-- The injected transport. -/
abbrev Transport := Request → Exchange

/-- No response with a readable body was obtained. -/
def Exchange.failed : Exchange → Bool
  | .buildError _ => true
  | .sendError _ => true
  | .response _ _ (some _) => true
  | .response _ _ none => false

/-- The files under each path, as `ioutil.ReadFile` sees them, and the error
`ioutil.WriteFile` meets at each path, if any. -/
structure FileSystem where
  files : Str → Except LibError Str
  writeErr : Str → Option LibError

/-- `ioutil.ReadFile`. -/
def ReadFile (fs : FileSystem) (path : Str) : Except LibError Str := fs.files path

/-- `ioutil.WriteFile`: on success the path holds exactly the data. -/
def WriteFile (fs : FileSystem) (path data : Str) : Except LibError FileSystem :=
  match fs.writeErr path with
  | some e => .error e
  | none => .ok { fs with files := fun p => if p = path then .ok data else fs.files p }

/-! ## Time -/

/-- `time.Time` as Unix seconds and the nanoseconds within the second.  Clock
readings are taken in the range where `Time.Add` does not saturate. -/
structure Time where
  sec : Int
  nsec : Int
deriving DecidableEq, Repr

/-- Conversion of an integer to `int64`, wrapping around. -/
def wrapInt64 (x : Int) : Int := (x + 2 ^ 63) % 2 ^ 64 - 2 ^ 63

/-- `time.Duration(ttl) * time.Second`: nanoseconds in an `int64`. -/
def durationSeconds (ttl : Int) : Int := wrapInt64 (wrapInt64 ttl * 1000000000)

/-- `Time.Add`: whole seconds and nanoseconds of the duration are added
apart, with a carry between them. -/
def Time.Add (t : Time) (d : Int) : Time :=
  let dsec := Int.tdiv d 1000000000
  let nsec := t.nsec + Int.tmod d 1000000000
  if nsec ≥ 1000000000 then ⟨t.sec + (dsec + 1), nsec - 1000000000⟩
  else if nsec < 0 then ⟨t.sec + (dsec - 1), nsec + 1000000000⟩
  else ⟨t.sec + dsec, nsec⟩

/-- `Time.Unix`. -/
def Time.Unix (t : Time) : Int := t.sec

/-! ## `pkg/nacos/client.go` -/

/-- `strings.TrimSuffix(s, "/")`. -/
def TrimSuffixSlash (s : Str) : Str :=
  if HasSuffix s ['/'] then s.dropLast else s

/-- `NewClient`. -/
def NewClient (serverURL username password namespace_ : Str) : Client :=
  { ServerURL := TrimSuffixSlash serverURL
    Username := username
    Password := password
    Namespace := namespace_
    Token := []
    TokenExpiry := 0 }

/-- The request `Client.Login` builds. -/
def loginRequest (c : Client) : Request :=
  { method := "POST".toList
    url := c.ServerURL ++ "/nacos/v1/auth/users/login".toList
    query := []
    form := [("username".toList, c.Username), ("password".toList, c.Password)]
    header := [("Content-Type".toList, "application/x-www-form-urlencoded".toList),
               ("User-Agent".toList, "nacos-cli".toList)] }

/-- `Client.Login`: the client after the call and the result.  `unmarshal` is
`json.Unmarshal` into a `LoginResponse`, `now` the reading of `time.Now()`. -/
def Login (c : Client) (http : Transport)
    (unmarshal : Str → Except LibError LoginResponse) (now : Time) :
    Client × Except Error LoginResponse :=
  match http (loginRequest c) with
  | .buildError e => (c, .error (.loginRequest e))
  | .sendError e => (c, .error (.loginSend e))
  | .response _ _ (some e) => (c, .error (.loginRead e))
  | .response status body none =>
    if status ≠ 200 then (c, .error (.loginStatus status body))
    else
      match unmarshal body with
      | .error e => (c, .error (.loginParse e body))
      | .ok loginResp =>
        if loginResp.AccessToken = [] then (c, .error .loginNoToken)
        else
          ({ c with
              Token := loginResp.AccessToken
              TokenExpiry := (now.Add (durationSeconds loginResp.TokenTtl)).Unix },
           .ok loginResp)

/-- The bearer header an operation sets when the client holds a token. -/
def bearerHeader (c : Client) : List (Str × Str) :=
  if c.Token ≠ [] then [("Authorization".toList, "Bearer ".toList ++ c.Token)] else []

/-- The tenant parameter an operation sets when the client has a namespace. -/
def tenantParam (c : Client) : Values :=
  if c.Namespace ≠ [] then [("tenant".toList, c.Namespace)] else []

/-- The request `Client.GetConfig` builds. -/
def getConfigRequest (c : Client) (dataID group : Str) : Request :=
  { method := "GET".toList
    url := c.ServerURL ++ "/nacos/v1/cs/configs?".toList
    query := [("dataId".toList, dataID), ("group".toList, group)] ++ tenantParam c
    form := []
    header := bearerHeader c }

/-- `Client.GetConfig`.  Status 404 is tested before the body is read; no other
status is tested. -/
def GetConfig (c : Client) (http : Transport) (dataID group : Str) : Except Error Config :=
  match http (getConfigRequest c dataID group) with
  | .buildError e => .error (.lib e)
  | .sendError e => .error (.getSend e)
  | .response status content readErr =>
    if status = 404 then .error .configNotExist
    else
      match readErr with
      | some e => .error (.lib e)
      | none => .ok { DataID := dataID, Group := group, Content := content, Typ := [] }

/-- The request `Client.PublishConfig` builds. -/
def publishConfigRequest (c : Client) (config : Config) : Request :=
  { method := "POST".toList
    url := c.ServerURL ++ "/nacos/v1/cs/configs".toList
    query := []
    form := [("dataId".toList, config.DataID), ("group".toList, config.Group),
             ("content".toList, config.Content)] ++
            (if config.Typ ≠ [] then [("type".toList, config.Typ)] else []) ++ tenantParam c
    header := [("Content-Type".toList, "application/x-www-form-urlencoded".toList)] ++
              bearerHeader c }

/-- `Client.PublishConfig`: `none` is the nil error. -/
def PublishConfig (c : Client) (http : Transport) (config : Config) : Option Error :=
  match http (publishConfigRequest c config) with
  | .buildError e => some (.lib e)
  | .sendError e => some (.publishSend e)
  | .response status body _ =>
    if status ≠ 200 then some (.publishStatus status body) else none

/-- The request `Client.DeleteConfig` builds. -/
def deleteConfigRequest (c : Client) (dataID group : Str) : Request :=
  { method := "DELETE".toList
    url := c.ServerURL ++ "/nacos/v1/cs/configs?".toList
    query := [("dataId".toList, dataID), ("group".toList, group)] ++ tenantParam c
    form := []
    header := bearerHeader c }

/-- `Client.DeleteConfig`: `none` is the nil error. -/
def DeleteConfig (c : Client) (http : Transport) (dataID group : Str) : Option Error :=
  match http (deleteConfigRequest c dataID group) with
  | .buildError e => some (.lib e)
  | .sendError e => some (.deleteSend e)
  | .response status body _ =>
    if status ≠ 200 then some (.deleteStatus status body) else none

/-- The `accessToken` header an operation sets when the client holds a token. -/
def accessTokenHeader (c : Client) : List (Str × Str) :=
  if c.Token ≠ [] then [("accessToken".toList, c.Token)] else []

/-- `fmt.Sprintf("%d", n)`. -/
def formatInt (n : Int) : Str := (toString n).toList

/-- The request `Client.ListConfigs` builds. -/
def listConfigsRequest (c : Client) (pageNo pageSize : Int) : Request :=
  { method := "GET".toList
    url := c.ServerURL ++ "/nacos/v1/cs/configs?".toList
    query := [("dataId".toList, []), ("group".toList, []), ("appName".toList, []),
              ("config_tags".toList, []), ("pageNo".toList, formatInt pageNo),
              ("pageSize".toList, formatInt pageSize), ("search".toList, "blur".toList)] ++
             tenantParam c ++
             (if c.Token ≠ [] then [("accessToken".toList, c.Token)] else []) ++
             (if c.Username ≠ [] then [("username".toList, c.Username)] else [])
    form := []
    header := [("User-Agent".toList, "nacos-cli".toList),
               ("Accept".toList, "application/json".toList)] ++ accessTokenHeader c }

/-- `Client.ListConfigs`; `unmarshal` is `json.Unmarshal` into the page. -/
def ListConfigs (c : Client) (http : Transport)
    (unmarshal : Str → Except LibError ConfigPage) (pageNo pageSize : Int) :
    Except Error (List Config) :=
  match http (listConfigsRequest c pageNo pageSize) with
  | .buildError e => .error (.lib e)
  | .sendError e => .error (.listSend e)
  | .response _ _ (some e) => .error (.lib e)
  | .response status body none =>
    if status ≠ 200 then .error (.listStatus status body)
    else
      match unmarshal body with
      | .error e => .error (.listParse e body)
      | .ok result => .ok result.PageItems

/-- The request `Client.ListNamespaces` builds. -/
def listNamespacesRequest (c : Client) : Request :=
  { method := "GET".toList
    url := c.ServerURL ++ "/nacos/v1/console/namespaces".toList
    query := []
    form := []
    header := [("User-Agent".toList, "nacos-cli".toList),
               ("Accept".toList, "application/json".toList)] ++ accessTokenHeader c }

/-- `Client.ListNamespaces`; `unmarshal` is `json.Unmarshal` into the
envelope. -/
def ListNamespaces (c : Client) (http : Transport)
    (unmarshal : Str → Except LibError NamespaceEnvelope) : Except Error (List Namespace) :=
  match http (listNamespacesRequest c) with
  | .buildError e => .error (.lib e)
  | .sendError e => .error (.namespacesSend e)
  | .response _ _ (some e) => .error (.lib e)
  | .response status body none =>
    if status ≠ 200 then .error (.namespacesStatus status body)
    else
      match unmarshal body with
      | .error e => .error (.namespacesParse e body)
      | .ok result =>
        if result.Code ≠ 200 then .error (.apiFailed result.Message)
        else .ok result.Data

/-- The request `Client.CreateNamespace` builds. -/
def createNamespaceRequest (c : Client) (namespaceId namespaceName namespaceDesc : Str) :
    Request :=
  { method := "POST".toList
    url := c.ServerURL ++ "/nacos/v1/console/namespaces".toList
    query := []
    form := [("customNamespaceId".toList, namespaceId),
             ("namespaceName".toList, namespaceName),
             ("namespaceDesc".toList, namespaceDesc)]
    header := [("Content-Type".toList, "application/x-www-form-urlencoded".toList),
               ("User-Agent".toList, "nacos-cli".toList)] ++ accessTokenHeader c }

/-- `Client.CreateNamespace`: `none` is the nil error. -/
def CreateNamespace (c : Client) (http : Transport)
    (namespaceId namespaceName namespaceDesc : Str) : Option Error :=
  match http (createNamespaceRequest c namespaceId namespaceName namespaceDesc) with
  | .buildError e => some (.lib e)
  | .sendError e => some (.createNamespaceSend e)
  | .response _ _ (some e) => some (.lib e)
  | .response status body none =>
    if status ≠ 200 then some (.createNamespaceStatus status body) else none

/-- The request `Client.DeleteNamespace` builds. -/
def deleteNamespaceRequest (c : Client) (namespaceId : Str) : Request :=
  { method := "DELETE".toList
    url := c.ServerURL ++ "/nacos/v1/console/namespaces?".toList
    query := [("namespaceId".toList, namespaceId)]
    form := []
    header := [("User-Agent".toList, "nacos-cli".toList)] ++ accessTokenHeader c }

/-- `Client.DeleteNamespace`: `none` is the nil error. -/
def DeleteNamespace (c : Client) (http : Transport) (namespaceId : Str) : Option Error :=
  match http (deleteNamespaceRequest c namespaceId) with
  | .buildError e => some (.lib e)
  | .sendError e => some (.deleteNamespaceSend e)
  | .response _ _ (some e) => some (.lib e)
  | .response status body none =>
    if status ≠ 200 then some (.deleteNamespaceStatus status body) else none

/-- The value of a header of a request, if the header is set. -/
def Request.headerValue (req : Request) (key : Str) : Option Str :=
  (req.header.find? (fun kv => kv.1 == key)).map (fun kv => kv.2)

/-! ## `cmd/config.go` -/

/-- The type column of `listConfigCmd` for one entry. -/
def listConfigType (config : Config) : Str :=
  if config.Typ = [] then
    if HasSuffix config.DataID ".yml".toList || HasSuffix config.DataID ".yaml".toList then
      "yaml".toList
    else if HasSuffix config.DataID ".properties".toList then "properties".toList
    else if HasSuffix config.DataID ".json".toList then "json".toList
    else if HasSuffix config.DataID ".xml".toList then "xml".toList
    else "text".toList
  else config.Typ

/-- The type `exportSingleConfig` resolves for an entry. -/
def exportConfigType (config : Config) : Str :=
  if config.Typ = [] then
    if HasSuffix config.DataID ".yml".toList || HasSuffix config.DataID ".yaml".toList then
      "yaml".toList
    else if HasSuffix config.DataID ".properties".toList then "properties".toList
    else if HasSuffix config.DataID ".json".toList then "json".toList
    else if HasSuffix config.DataID ".xml".toList then "xml".toList
    else "text".toList
  else config.Typ

/-- The header of line comments, `fmt.Sprintf` unfolded. -/
def hashHeader (config : Config) (configType : Str) : Str :=
  "# Nacos配置\n# DataID: ".toList ++ config.DataID ++ "\n# Group: ".toList ++ config.Group ++
    "\n# Type: ".toList ++ configType ++ "\n\n".toList

/-- The header in an XML comment, `fmt.Sprintf` unfolded. -/
def xmlHeader (config : Config) (configType : Str) : Str :=
  "<!-- Nacos配置\nDataID: ".toList ++ config.DataID ++ "\nGroup: ".toList ++ config.Group ++
    "\nType: ".toList ++ configType ++ "\n-->\n\n".toList

/-- The `switch configType` of `exportSingleConfig`. -/
def exportHeader (config : Config) (configType : Str) : Str :=
  if configType = "yaml".toList ∨ configType = "yml".toList then hashHeader config configType
  else if configType = "properties".toList then hashHeader config configType
  else if configType = "json".toList then []
  else if configType = "xml".toList then xmlHeader config configType
  else hashHeader config configType

/-- The file name `exportSingleConfig` builds. -/
def exportFilename (config : Config) : Str := config.Group ++ '@' :: config.DataID

/-- The path `exportSingleConfig` writes to. -/
def exportPath (outputDir : Str) (config : Config) : Str :=
  FilepathJoin outputDir (exportFilename config)

/-- `exportSingleConfig`: the file system after the call and the error. -/
def exportSingleConfig (fs : FileSystem) (outputDir : Str) (config : Config) :
    FileSystem × Option Error :=
  let configType := exportConfigType config
  let filepath := exportPath outputDir config
  let header := exportHeader config configType
  let content := header ++ config.Content
  match WriteFile fs filepath content with
  | .error e => (fs, some (.writeFile e))
  | .ok fs1 => (fs1, none)

/-- The type `importSingleFile` derives from the dataId. -/
def importConfigType (dataId : Str) : Str :=
  if Contains dataId '.' then
    let ext := ToLower (Ext dataId)
    if ext = ".yaml".toList ∨ ext = ".yml".toList then "yaml".toList
    else if ext = ".properties".toList then "properties".toList
    else if ext = ".json".toList then "json".toList
    else if ext = ".xml".toList then "xml".toList
    else "text".toList
  else []

/-- The test that ends the header scan of `importSingleFile`: the trimmed line
starts with neither `#` nor `<!--` and is not empty. -/
def endsHeader (line : Str) : Bool :=
  let trimmedLine := TrimSpace line
  !HasPrefix trimmedLine "#".toList && !HasPrefix trimmedLine "<!--".toList && trimmedLine != []

/-- The header scan of `importSingleFile` from index `i` on: the index of the
first line that passes the test; `startLine` keeps its initial 0 when the loop
runs to the end. -/
def scanStartLine : Nat → List Str → Nat
  | _, [] => 0
  | i, line :: rest => if endsHeader line then i else scanStartLine (i + 1) rest

/-- The content `importSingleFile` keeps of a file body. -/
def cleanContent (fileContent : Str) : Str :=
  let lines := Split '\n' fileContent
  let startLine := scanStartLine 0 lines
  Join '\n' (lines.drop startLine)

/-- What a run of `importSingleFile` did: the entry it handed to
`PublishConfig`, if it came that far, and the error it returned. -/
structure ImportRun where
  published : Option Config
  err : Option Error
deriving DecidableEq, Repr

/-- `importSingleFile`. -/
def importSingleFile (fs : FileSystem) (http : Transport) (client : Client) (filePath : Str) :
    ImportRun :=
  match ReadFile fs filePath with
  | .error e => ⟨none, some (.readFile e)⟩
  | .ok content =>
    let fileName := Base filePath
    match SplitN2 '@' fileName with
    | [group, dataId] =>
      let config : Config :=
        { DataID := dataId
          Group := group
          Content := cleanContent content
          Typ := importConfigType dataId }
      match PublishConfig client http config with
      | some e => ⟨some config, some (.importPublish e)⟩
      | none => ⟨some config, none⟩
    | _ => ⟨none, some (.fileNameFormat fileName)⟩

/-- The settings `createClient` reads from the settings store. -/
structure Settings where
  server : Str
  username : Str
  password : Str
  namespace_ : Str
  token : Str
  tokenExpiry : Int
deriving DecidableEq, Repr

/-- The test of `createClient` on a saved token: it is there and has not
expired at the reading `now` of the clock. -/
def tokenUsable (token : Str) (tokenExpiry : Int) (now : Time) : Bool :=
  token != [] && decide (tokenExpiry > now.Unix)

/-- `createClient`. -/
def createClient (s : Settings) (now : Time) : Client :=
  let client := NewClient s.server s.username s.password s.namespace_
  if tokenUsable s.token s.tokenExpiry now then
    { client with Token := s.token, TokenExpiry := s.tokenExpiry }
  else client

/-- The first line of a text: what stands before the first line feed. -/
def firstLine (s : Str) : Str := s.takeWhile (fun c => c != '\n')

/-- A proper file name: one non-empty path element other than `.` and `..`. -/
def properName (name : Str) : Prop :=
  name ≠ [] ∧ '/' ∉ name ∧ name ≠ ['.'] ∧ name ≠ ['.', '.']

/-- Export of an entry followed by import of the file it wrote. -/
def roundTrip (fs : FileSystem) (http : Transport) (client : Client) (outputDir : Str)
    (config : Config) : ImportRun :=
  importSingleFile (exportSingleConfig fs outputDir config).1 http client
    (exportPath outputDir config)

/-- A line is blank or comment-shaped: trimmed, it is empty or begins with `#`
or with `<!--`. -/
def commentShaped (line : Str) : Prop :=
  TrimSpace line = [] ∨ "#".toList <+: TrimSpace line ∨ "<!--".toList <+: TrimSpace line

instance (line : Str) : Decidable (commentShaped line) := by
  unfold commentShaped
  infer_instance

/-- The premises of the round trip as the specification states it: the dataId
holds no `@`, the first line of the content is neither blank nor
comment-shaped, and the export wrote its file. -/
def roundTripPremises (fs : FileSystem) (outputDir : Str) (config : Config) : Prop :=
  '@' ∉ config.DataID ∧ ¬ commentShaped (firstLine config.Content) ∧
    (exportSingleConfig fs outputDir config).2 = none

instance (fs : FileSystem) (outputDir : Str) (config : Config) :
    Decidable (roundTripPremises fs outputDir config) := by
  unfold roundTripPremises
  infer_instance

/-- The requests handed to the transport for one operation: the request it
built, unless `http.NewRequest` failed. -/
def sentTo (http : Transport) (req : Request) : List Request :=
  match http req with
  | .buildError _ => []
  | _ => [req]

/-- What a run of a command did: the requests it sent, in order, and its
result. -/
structure CommandRun (α : Type) where
  sent : List Request
  result : Except Error α

/-- The `RunE` of `getConfigCmd` up to the printing of the entry.  `now0` is
the clock reading of `createClient`, `now1` that of `Login`. -/
def getConfigCmd (s : Settings) (http : Transport)
    (unmarshal : Str → Except LibError LoginResponse) (now0 now1 : Time)
    (dataId group : Str) : CommandRun Config :=
  let client := createClient s now0
  let login := Login client http unmarshal now1
  match login.2 with
  | .error err => ⟨sentTo http (loginRequest client), .error err⟩
  | .ok _ =>
    ⟨sentTo http (loginRequest client) ++ sentTo http (getConfigRequest login.1 dataId group),
     GetConfig login.1 http dataId group⟩

/-- What the export loop of `exportConfigCmd` has done so far: the file
system, the counter `exportCount`, the paths of the files written, and the
entries with the failures printed for them, both in order. -/
structure ExportRun where
  fs : FileSystem
  exportCount : Nat
  written : List Str
  failed : List (Config × Error)

/-- One round of the export loop of `exportConfigCmd`. -/
def exportRound (client : Client) (http : Transport) (outputDir : Str) (run : ExportRun)
    (config : Config) : ExportRun :=
  match GetConfig client http config.DataID config.Group with
  | .error err => { run with failed := run.failed ++ [(config, err)] }
  | .ok fullConfig =>
    match exportSingleConfig run.fs outputDir fullConfig with
    | (_, some err) => { run with failed := run.failed ++ [(config, err)] }
    | (fs1, none) =>
      { fs := fs1
        exportCount := run.exportCount + 1
        written := run.written ++ [exportPath outputDir fullConfig]
        failed := run.failed }

/-- The export loop of `exportConfigCmd` over the listed entries. -/
def exportLoop (client : Client) (http : Transport) (fs : FileSystem) (outputDir : Str)
    (configs : List Config) : ExportRun :=
  configs.foldl (exportRound client http outputDir) ⟨fs, 0, [], []⟩

/-- The fetch of a listed entry and the write of its file both succeed. -/
def exportSucceeds (client : Client) (http : Transport) (fs : FileSystem) (outputDir : Str)
    (config : Config) : Bool :=
  match GetConfig client http config.DataID config.Group with
  | .error _ => false
  | .ok fullConfig => (fs.writeErr (exportPath outputDir fullConfig)).isNone

/-- The path the export loop writes the file of a listed entry to. -/
def exportTarget (outputDir : Str) (config : Config) : Str :=
  exportPath outputDir ⟨config.DataID, config.Group, [], []⟩

/-! ## Sample collaborators -/

/-- A file system without files where every write succeeds. -/
def emptyFS : FileSystem :=
  ⟨fun _ => .error "no such file".toList, fun _ => none⟩

/-- A file system with one file. -/
def oneFileFS (path body : Str) : FileSystem :=
  ⟨fun p => if p = path then .ok body else .error "no such file".toList, fun _ => none⟩

/-- A transport that answers every request with the given status and body. -/
def fixedTransport (status : Int) (body : Str) : Transport :=
  fun _ => .response status body none

/-- A transport that answers status 404 to every request whose query names the
given dataId, and status 200 with the given body to every other request. -/
def missingOne (dataId body : Str) : Transport :=
  fun req =>
    if req.query.contains ("dataId".toList, dataId) then .response 404 [] none
    else .response 200 body none

/-- A transport that answers the given status and error body to every request
whose query names the given dataId, and status 200 with the given body to
every other request. -/
def refusedOne (status : Int) (dataId errBody body : Str) : Transport :=
  fun req =>
    if req.query.contains ("dataId".toList, dataId) then .response status errBody none
    else .response 200 body none

/-- A client without token. -/
def sampleClient : Client :=
  NewClient "http://127.0.0.1:8848/".toList "nacos".toList "nacos".toList []

/-! ## Lemmas on the string functions -/

theorem Split_ne_nil (sep : Char) (s : Str) : Split sep s ≠ [] := by
  induction s with
  | nil => simp [Split]
  | cons c cs ih =>
    unfold Split
    split
    · simp
    · split
      · simp
      · simp

theorem Split_of_not_mem (sep : Char) (s : Str) (h : sep ∉ s) : Split sep s = [s] := by
  induction s with
  | nil => simp [Split]
  | cons c cs ih =>
    have hc : c ≠ sep := fun e => h (by simp [e])
    have hcs : sep ∉ cs := fun m => h (List.mem_cons_of_mem _ m)
    simp [Split, hc, ih hcs]

theorem Split_append_sep (sep : Char) (a b : Str) (h : sep ∉ a) :
    Split sep (a ++ sep :: b) = a :: Split sep b := by
  induction a with
  | nil => simp [Split]
  | cons c cs ih =>
    have hc : c ≠ sep := fun e => h (by simp [e])
    have hcs : sep ∉ cs := fun m => h (List.mem_cons_of_mem _ m)
    simp [Split, hc, ih hcs]

theorem Join_cons_cons (sep : Char) (l m : Str) (ls : List Str) :
    Join sep (l :: m :: ls) = l ++ sep :: Join sep (m :: ls) := rfl

theorem Join_Split (sep : Char) (s : Str) : Join sep (Split sep s) = s := by
  induction s with
  | nil => simp [Split, Join]
  | cons c cs ih =>
    unfold Split
    split
    · next h =>
      obtain ⟨l, ls, hl⟩ := List.exists_cons_of_ne_nil (Split_ne_nil sep cs)
      rw [hl, Join_cons_cons, ← hl, ih, h]
      rfl
    · split
      · next h => exact absurd h (Split_ne_nil sep cs)
      · next l ls h =>
        rw [h] at ih
        cases ls with
        | nil =>
          simp only [Join] at ih ⊢
          rw [ih]
        | cons m ms =>
          rw [Join_cons_cons] at ih ⊢
          rw [← ih]
          rfl

theorem dropWhile_append_last (p : Char → Bool) (l : Str) (a : Char) (ha : p a = false) :
    (l ++ [a]).dropWhile p = l.dropWhile p ++ [a] := by
  induction l with
  | nil => simp [List.dropWhile, ha]
  | cons c cs ih =>
    by_cases hc : p c = true
    · simp [List.dropWhile, hc, ih]
    · simp [List.dropWhile, hc]

/-- A line that starts with a character that is no white space keeps it in
front when trimmed. -/
theorem TrimSpace_cons (a : Char) (t : Str) (ha : isSpace a = false) :
    ∃ u, TrimSpace (a :: t) = a :: u := by
  unfold TrimSpace
  have h1 : (a :: t).dropWhile isSpace = a :: t := by simp [List.dropWhile, ha]
  rw [h1, List.reverse_cons, dropWhile_append_last isSpace _ a ha]
  exact ⟨(t.reverse.dropWhile isSpace).reverse, by simp⟩

/-- A line starting with `#` does not end the header scan. -/
theorem endsHeader_hash (t : Str) : endsHeader ('#' :: t) = false := by
  obtain ⟨u, hu⟩ := TrimSpace_cons '#' t (by decide)
  simp [endsHeader, hu, HasPrefix, List.isPrefixOf]

theorem endsHeader_nil : endsHeader [] = false := by decide

theorem scanStartLine_skip (hdr : List Str) (hh : ∀ l ∈ hdr, endsHeader l = false)
    (line : Str) (hl : endsHeader line = true) (rest : List Str) (i : Nat) :
    scanStartLine i (hdr ++ line :: rest) = i + hdr.length := by
  induction hdr generalizing i with
  | nil => simp [scanStartLine, hl]
  | cons h hs ih =>
    have h0 : endsHeader h = false := hh h (by simp)
    have hs0 : ∀ l ∈ hs, endsHeader l = false := fun l m => hh l (List.mem_cons_of_mem _ m)
    rw [List.cons_append, scanStartLine]
    simp only [h0, Bool.false_eq_true, if_false]
    rw [ih hs0]
    simp only [List.length_cons]
    omega

theorem scanStartLine_all (ls : List Str) (hh : ∀ l ∈ ls, endsHeader l = false) (i : Nat) :
    scanStartLine i ls = 0 := by
  induction ls generalizing i with
  | nil => rfl
  | cons h hs ih =>
    have h0 : endsHeader h = false := hh h (by simp)
    simp only [scanStartLine, h0, Bool.false_eq_true, if_false]
    exact ih (fun l m => hh l (List.mem_cons_of_mem _ m)) _

theorem Split_eq_firstLine_cons (s : Str) :
    ∃ rest, Split '\n' s = firstLine s :: rest := by
  induction s with
  | nil => exact ⟨[], by simp [Split, firstLine]⟩
  | cons c cs ih =>
    obtain ⟨rest, hr⟩ := ih
    by_cases hc : c = '\n'
    · exact ⟨Split '\n' cs, by simp [Split, firstLine, hc]⟩
    · refine ⟨rest, ?_⟩
      have hb : (c != '\n') = true := by simp [hc]
      simp [Split, firstLine, hc, hr, List.takeWhile, hb]

/-- The scan keeps all of a text whose first line ends the header. -/
theorem cleanContent_of_firstLine (s : Str) (h : endsHeader (firstLine s) = true) :
    cleanContent s = s := by
  obtain ⟨rest, hr⟩ := Split_eq_firstLine_cons s
  have : scanStartLine 0 (Split '\n' s) = 0 := by simp [hr, scanStartLine, h]
  simp only [cleanContent, this, List.drop_zero]
  exact Join_Split _ _

/-- The scan removes a run of header lines in front of a text whose first line
ends the header. -/
theorem cleanContent_header (hdr : List Str) (hh : ∀ l ∈ hdr, endsHeader l = false)
    (body s : Str) (hs : endsHeader (firstLine s) = true)
    (hb : Split '\n' body = hdr ++ Split '\n' s) : cleanContent body = s := by
  obtain ⟨rest, hr⟩ := Split_eq_firstLine_cons s
  have h1 : scanStartLine 0 (Split '\n' body) = hdr.length := by
    rw [hb, hr, scanStartLine_skip hdr hh _ hs]
    simp
  simp only [cleanContent]
  rw [h1, hb, List.drop_left]
  exact Join_Split _ _

/-! ## Lemmas on the path functions -/

theorem Split_append (sep : Char) (a b : Str) :
    ∃ init last rest, Split sep a = init ++ [last] ∧ Split sep b = [] ++ rest ∧
      Split sep (a ++ sep :: b) = Split sep a ++ Split sep b := by
  refine ⟨(Split sep a).dropLast, (Split sep a).getLast (Split_ne_nil sep a), Split sep b,
    (List.dropLast_append_getLast _).symm, rfl, ?_⟩
  induction a with
  | nil => simp [Split]
  | cons c cs ih =>
    by_cases hc : c = sep
    · simp [Split, hc, ih]
    · obtain ⟨l, ls, hl⟩ := List.exists_cons_of_ne_nil (Split_ne_nil sep cs)
      have h1 : Split sep (c :: cs) = (c :: l) :: ls := by simp [Split, hc, hl]
      have h2 : Split sep (c :: (cs ++ sep :: b)) = (c :: l) :: (ls ++ Split sep b) := by
        simp [Split, hc, ih, hl]
      rw [List.cons_append, h1, h2]
      rfl

theorem Split_append_name (sep : Char) (a name : Str) (h : sep ∉ name) :
    Split sep (a ++ sep :: name) = Split sep a ++ [name] := by
  obtain ⟨_, _, _, _, _, h3⟩ := Split_append sep a name
  rw [h3, Split_of_not_mem sep name h]

theorem Join_append_singleton (sep : Char) (xs : List Str) (name : Str) :
    Join sep (xs ++ [name]) = if xs = [] then name else Join sep xs ++ sep :: name := by
  induction xs with
  | nil => simp [Join]
  | cons x xs ih =>
    cases xs with
    | nil => simp [Join]
    | cons y ys =>
      have : (x :: y :: ys) ++ [name] = x :: (y :: (ys ++ [name])) := rfl
      rw [this, Join_cons_cons, Join_cons_cons]
      have h2 : y :: (ys ++ [name]) = (y :: ys) ++ [name] := rfl
      rw [h2, ih]
      simp

theorem Base_append (P name : Str) (hP : P = [] ∨ ∃ Q, P = Q ++ ['/'])
    (hn : name ≠ []) (hs : '/' ∉ name) : Base (P ++ name) = name := by
  have hne : P ++ name ≠ [] := by simp [hn]
  have hall : ∀ c ∈ name.reverse, (fun c => !IsPathSeparator c) c = true := by
    intro c hc
    have : c ∈ name := List.mem_reverse.mp hc
    have hc2 : c ≠ '/' := fun e => hs (e ▸ this)
    simp [IsPathSeparator, hc2]
  obtain ⟨x, xs, hx⟩ := List.exists_cons_of_ne_nil (show name.reverse ≠ [] by simp [hn])
  have hxs : IsPathSeparator x = false := by
    have := hall x (by simp [hx])
    simpa using this
  have hdrop : (P ++ name).reverse.dropWhile IsPathSeparator = name.reverse ++ P.reverse := by
    rw [List.reverse_append, hx]
    simp [List.dropWhile, hxs]
  have htake : (name.reverse ++ P.reverse).takeWhile (fun c => !IsPathSeparator c)
      = name.reverse := by
    rw [List.takeWhile_append_of_pos hall]
    rcases hP with h | ⟨Q, h⟩
    · simp [h]
    · simp [h, List.takeWhile, IsPathSeparator]
  simp only [Base, hne, if_false, hdrop, htake, List.reverse_reverse, hn]

theorem cleanStep_properName (rooted : Bool) (kept : List Str) (name : Str)
    (h : properName name) : cleanStep rooted kept name = name :: kept := by
  obtain ⟨h1, _, h3, h4⟩ := h
  simp [cleanStep, h1, h3, h4]

/-- Cleaning a path that ends in a proper file name keeps the name as the last
element. -/
theorem Clean_ends_with_name (path name : Str) (hn : properName name)
    (hp : path = name ∨ ∃ dir, path = dir ++ '/' :: name) :
    ∃ P, (P = [] ∨ ∃ Q, P = Q ++ ['/']) ∧ Clean path = P ++ name := by
  have hsplit : ∃ init, Split '/' path = init ++ [name] := by
    rcases hp with h | ⟨dir, h⟩
    · exact ⟨[], by rw [h, Split_of_not_mem _ _ hn.2.1]; rfl⟩
    · exact ⟨Split '/' dir, by rw [h, Split_append_name _ _ _ hn.2.1]⟩
  obtain ⟨init, hi⟩ := hsplit
  have hne : path ≠ [] := by
    rcases hp with h | ⟨dir, h⟩
    · rw [h]; exact hn.1
    · rw [h]; simp
  have hkept : ∀ rooted, ((Split '/' path).foldl (cleanStep rooted) []).reverse
      = (init.foldl (cleanStep rooted) []).reverse ++ [name] := by
    intro rooted
    rw [hi, List.foldl_append]
    simp [cleanStep_properName _ _ _ hn]
  simp only [Clean, hne, if_false, hkept]
  cases path.head?.any IsPathSeparator with
  | true =>
    simp only [if_true]
    rw [Join_append_singleton]
    split
    · exact ⟨['/'], Or.inr ⟨[], rfl⟩, rfl⟩
    · exact ⟨'/' :: Join '/' (init.foldl (cleanStep true) []).reverse ++ ['/'],
        Or.inr ⟨_, rfl⟩, by simp⟩
  | false =>
    simp only [Bool.false_eq_true, List.append_eq_nil, List.cons_ne_self, and_false, if_false]
    rw [Join_append_singleton]
    split
    · exact ⟨[], Or.inl rfl, rfl⟩
    · exact ⟨Join '/' (init.foldl (cleanStep false) []).reverse ++ ['/'],
        Or.inr ⟨_, rfl⟩, by simp⟩

/-- The base name of a file name joined under a directory is the file name. -/
theorem Base_FilepathJoin (dir name : Str) (hn : properName name) :
    Base (FilepathJoin dir name) = name := by
  have hclean : ∀ path, (path = name ∨ ∃ d, path = d ++ '/' :: name) →
      Base (Clean path) = name := by
    intro path hp
    obtain ⟨P, hP, hc⟩ := Clean_ends_with_name path name hn hp
    rw [hc]
    exact Base_append P name hP hn.1 hn.2.1
  unfold FilepathJoin
  split
  · exact hclean _ (Or.inr ⟨dir, rfl⟩)
  · rw [if_pos hn.1]
    exact hclean _ (Or.inl rfl)

/-! ## Lemmas on export and import -/

theorem properName_exportFilename (config : Config) (hg : '/' ∉ config.Group)
    (hd : '/' ∉ config.DataID) : properName (exportFilename config) := by
  have hmem : '@' ∈ exportFilename config := by simp [exportFilename]
  refine ⟨by simp [exportFilename], ?_, ?_, ?_⟩
  · simp [exportFilename, hg, hd]
  · intro h
    rw [h] at hmem
    simp at hmem
  · intro h
    rw [h] at hmem
    simp at hmem

theorem SplitN2_at (sep : Char) (g d : Str) (hg : sep ∉ g) :
    SplitN2 sep (g ++ sep :: d) = [g, d] := by
  have hall : ∀ c ∈ g, (fun c => c != sep) c = true := by
    intro c hc
    have : c ≠ sep := fun e => hg (e ▸ hc)
    simp [this]
  have h1 : (g ++ sep :: d).takeWhile (fun c => c != sep) = g := by
    rw [List.takeWhile_append_of_pos hall]
    simp [List.takeWhile]
  have h2 : (g ++ sep :: d).dropWhile (fun c => c != sep) = sep :: d := by
    rw [List.dropWhile_append_of_pos hall]
    simp [List.dropWhile]
  simp [SplitN2, h1, h2]

theorem SplitN2_of_not_mem (sep : Char) (s : Str) (h : sep ∉ s) : SplitN2 sep s = [s] := by
  simp [SplitN2, h]

/-- A string that holds the separator splits at the first one. -/
theorem exists_split_at_first (sep : Char) (s : Str) (h : sep ∈ s) :
    ∃ g d, s = g ++ sep :: d ∧ sep ∉ g := by
  induction s with
  | nil => simp at h
  | cons c cs ih =>
    by_cases hc : c = sep
    · exact ⟨[], cs, by simp [hc], by simp⟩
    · have hcs : sep ∈ cs := by
        rcases List.mem_cons.mp h with e | m
        · exact absurd e.symm hc
        · exact m
      obtain ⟨g, d, hs, hg⟩ := ih hcs
      refine ⟨c :: g, d, by simp [hs], ?_⟩
      intro m
      rcases List.mem_cons.mp m with e | m
      · exact hc e.symm
      · exact hg m

theorem ReadFile_WriteFile (fs fs1 : FileSystem) (path data : Str)
    (h : WriteFile fs path data = .ok fs1) : ReadFile fs1 path = .ok data := by
  unfold WriteFile at h
  split at h
  · cases h
  · cases h
    simp [ReadFile]

/-- What `importSingleFile` does with a readable file whose base name holds an
`@`: it decodes the entry and hands it to `PublishConfig`. -/
theorem importSingleFile_decode (fs : FileSystem) (http : Transport) (client : Client)
    (filePath content g d : Str) (hr : ReadFile fs filePath = .ok content)
    (hb : Base filePath = g ++ '@' :: d) (hg : '@' ∉ g) :
    importSingleFile fs http client filePath =
      ⟨some ⟨d, g, cleanContent content, importConfigType d⟩,
       (PublishConfig client http ⟨d, g, cleanContent content, importConfigType d⟩).map
         Error.importPublish⟩ := by
  simp only [importSingleFile, hr, hb, SplitN2_at '@' g d hg]
  cases PublishConfig client http ⟨d, g, cleanContent content, importConfigType d⟩ <;> rfl

/-- What `importSingleFile` does with a readable file whose base name holds no
`@`: it fails on the file name before any entry is built. -/
theorem importSingleFile_noAt (fs : FileSystem) (http : Transport) (client : Client)
    (filePath content : Str) (hr : ReadFile fs filePath = .ok content)
    (hb : '@' ∉ Base filePath) :
    importSingleFile fs http client filePath =
      ⟨none, some (.fileNameFormat (Base filePath))⟩ := by
  simp only [importSingleFile, hr, SplitN2_of_not_mem '@' _ hb]

/-- The lines of a body that starts with the header of line comments. -/
theorem Split_hashHeader (config : Config) (t : Str) (hd : '\n' ∉ config.DataID)
    (hg : '\n' ∉ config.Group) (ht : '\n' ∉ t) :
    Split '\n' (hashHeader config t ++ config.Content) =
      ["# Nacos配置".toList, "# DataID: ".toList ++ config.DataID,
       "# Group: ".toList ++ config.Group, "# Type: ".toList ++ t, []] ++
      Split '\n' config.Content := by
  have e : hashHeader config t ++ config.Content =
      "# Nacos配置".toList ++ '\n' :: (("# DataID: ".toList ++ config.DataID) ++ '\n' ::
        (("# Group: ".toList ++ config.Group) ++ '\n' :: (("# Type: ".toList ++ t) ++ '\n' ::
          ([] ++ '\n' :: config.Content)))) := by
    simp [hashHeader]
  rw [e, Split_append_sep _ _ _ (by decide), Split_append_sep _ _ _ (by simp [hd]),
    Split_append_sep _ _ _ (by simp [hg]), Split_append_sep _ _ _ (by simp [ht]),
    Split_append_sep _ _ _ (by simp)]
  rfl

/-- The header scan removes the header of line comments in front of a content
whose first line ends the scan. -/
theorem cleanContent_hashHeader (config : Config) (t : Str) (hd : '\n' ∉ config.DataID)
    (hg : '\n' ∉ config.Group) (ht : '\n' ∉ t)
    (hc : endsHeader (firstLine config.Content) = true) :
    cleanContent (hashHeader config t ++ config.Content) = config.Content := by
  refine cleanContent_header _ ?_ _ _ hc (Split_hashHeader config t hd hg ht)
  intro l hl
  simp only [List.mem_cons, List.mem_singleton, List.not_mem_nil, or_false] at hl
  rcases hl with h | h | h | h | h <;> rw [h]
  · decide
  · exact endsHeader_hash _
  · exact endsHeader_hash _
  · exact endsHeader_hash _
  · exact endsHeader_nil

/-- The header scan undoes the header of `exportSingleConfig` for every
resolved type but xml. -/
theorem cleanContent_exportHeader (config : Config) (t : Str) (hx : t ≠ "xml".toList)
    (hd : '\n' ∉ config.DataID) (hg : '\n' ∉ config.Group) (ht : '\n' ∉ t)
    (hc : endsHeader (firstLine config.Content) = true) :
    cleanContent (exportHeader config t ++ config.Content) = config.Content := by
  unfold exportHeader
  split
  · exact cleanContent_hashHeader config t hd hg ht hc
  · split
    · exact cleanContent_hashHeader config t hd hg ht hc
    · split
      · exact cleanContent_of_firstLine _ hc
      · exact cleanContent_hashHeader config t hd hg ht hc

/-! ## Lemmas on the extension -/

theorem ExtRev_found (e rest acc : Str) (hdot : '.' ∉ e) (hsep : '/' ∉ e) :
    ExtRev (e ++ '.' :: rest) acc = '.' :: (e.reverse ++ acc) := by
  induction e generalizing acc with
  | nil => simp [ExtRev, IsPathSeparator]
  | cons c cs ih =>
    have h1 : c ≠ '.' := fun h => hdot (by simp [h])
    have h2 : c ≠ '/' := fun h => hsep (by simp [h])
    have h3 : '.' ∉ cs := fun m => hdot (List.mem_cons_of_mem _ m)
    have h4 : '/' ∉ cs := fun m => hsep (List.mem_cons_of_mem _ m)
    simp [ExtRev, IsPathSeparator, h1, h2, ih _ h3 h4]

theorem Ext_append_dot (stem e : Str) (hdot : '.' ∉ e) (hsep : '/' ∉ e) :
    Ext (stem ++ '.' :: e) = '.' :: e := by
  unfold Ext
  rw [List.reverse_append, List.reverse_cons, List.append_assoc, List.singleton_append,
    ExtRev_found _ _ _ (by simpa using hdot) (by simpa using hsep)]
  simp

theorem ExtRev_shape (r acc : Str) :
    ExtRev r acc = [] ∨ ∃ p q, r = p ++ q ∧ ExtRev r acc = p.reverse ++ acc := by
  induction r generalizing acc with
  | nil => exact Or.inl rfl
  | cons c rest ih =>
    unfold ExtRev
    split
    · exact Or.inl rfl
    · split
      · exact Or.inr ⟨[c], rest, rfl, rfl⟩
      · rcases ih (c :: acc) with h | ⟨p, q, h1, h2⟩
        · exact Or.inl h
        · exact Or.inr ⟨c :: p, q, by simp [h1], by simp [h2]⟩

/-- The extension is empty or a suffix of the path. -/
theorem Ext_suffix (d : Str) : Ext d = [] ∨ Ext d <:+ d := by
  rcases ExtRev_shape d.reverse [] with h | ⟨p, q, h1, h2⟩
  · exact Or.inl h
  · refine Or.inr ⟨q.reverse, ?_⟩
    have : d = q.reverse ++ p.reverse := by
      have := congrArg List.reverse h1
      simpa using this
    rw [Ext, h2, List.append_nil]
    exact this.symm

/-- Ending in a dotted suffix without further dot is having that extension. -/
theorem HasSuffix_iff_Ext (d e : Str) (hdot : '.' ∉ e) (hsep : '/' ∉ e) :
    HasSuffix d ('.' :: e) = true ↔ Ext d = '.' :: e := by
  constructor
  · intro h
    obtain ⟨stem, hs⟩ := List.isSuffixOf_iff_suffix.mp h
    rw [← hs]
    exact Ext_append_dot stem e hdot hsep
  · intro h
    rcases Ext_suffix d with h0 | h1
    · rw [h0] at h
      cases h
    · rw [h] at h1
      exact List.isSuffixOf_iff_suffix.mpr h1

theorem HasSuffix_yml (d : Str) : HasSuffix d ".yml".toList = true ↔ Ext d = ".yml".toList :=
  HasSuffix_iff_Ext d "yml".toList (by decide) (by decide)

theorem HasSuffix_yaml (d : Str) : HasSuffix d ".yaml".toList = true ↔ Ext d = ".yaml".toList :=
  HasSuffix_iff_Ext d "yaml".toList (by decide) (by decide)

theorem HasSuffix_properties (d : Str) :
    HasSuffix d ".properties".toList = true ↔ Ext d = ".properties".toList :=
  HasSuffix_iff_Ext d "properties".toList (by decide) (by decide)

theorem HasSuffix_json (d : Str) : HasSuffix d ".json".toList = true ↔ Ext d = ".json".toList :=
  HasSuffix_iff_Ext d "json".toList (by decide) (by decide)

theorem HasSuffix_xml (d : Str) : HasSuffix d ".xml".toList = true ↔ Ext d = ".xml".toList :=
  HasSuffix_iff_Ext d "xml".toList (by decide) (by decide)

/-- The inference of `exportSingleConfig`, read off the extension. -/
theorem exportConfigType_by_Ext (d g content : Str) :
    exportConfigType ⟨d, g, content, []⟩ =
      if Ext d = ".yml".toList ∨ Ext d = ".yaml".toList then "yaml".toList
      else if Ext d = ".properties".toList then "properties".toList
      else if Ext d = ".json".toList then "json".toList
      else if Ext d = ".xml".toList then "xml".toList
      else "text".toList := by
  simp only [exportConfigType, if_true, Bool.or_eq_true, HasSuffix_yml, HasSuffix_yaml,
    HasSuffix_properties, HasSuffix_json, HasSuffix_xml]

theorem listConfigType_eq_export (config : Config) :
    listConfigType config = exportConfigType config := rfl

/-! ## Export followed by import -/

theorem endsHeader_iff (line : Str) : endsHeader line = true ↔ ¬ commentShaped line := by
  simp only [endsHeader, commentShaped, HasPrefix, Bool.and_eq_true, Bool.not_eq_true',
    bne_iff_ne, ne_eq, not_or, ← List.isPrefixOf_iff_prefix, Bool.not_eq_true]
  tauto

theorem newline_not_mem_exportConfigType (config : Config) (h : '\n' ∉ config.Typ) :
    '\n' ∉ exportConfigType config := by
  unfold exportConfigType
  split
  · split
    · decide
    · split
      · decide
      · split
        · decide
        · split <;> decide
  · exact h

/-- The file a successful export wrote, as import decodes it. -/
theorem roundTrip_eq (fs : FileSystem) (http : Transport) (client : Client)
    (outputDir : Str) (config : Config) (hgAt : '@' ∉ config.Group)
    (hgs : '/' ∉ config.Group) (hds : '/' ∉ config.DataID)
    (hw : (exportSingleConfig fs outputDir config).2 = none) :
    roundTrip fs http client outputDir config =
      ⟨some ⟨config.DataID, config.Group,
          cleanContent (exportHeader config (exportConfigType config) ++ config.Content),
          importConfigType config.DataID⟩,
       (PublishConfig client http ⟨config.DataID, config.Group,
          cleanContent (exportHeader config (exportConfigType config) ++ config.Content),
          importConfigType config.DataID⟩).map Error.importPublish⟩ := by
  have hbase : Base (exportPath outputDir config) = config.Group ++ '@' :: config.DataID :=
    Base_FilepathJoin outputDir _ (properName_exportFilename config hgs hds)
  unfold roundTrip
  cases hwf : WriteFile fs (exportPath outputDir config)
      (exportHeader config (exportConfigType config) ++ config.Content) with
  | error e => simp [exportSingleConfig, hwf] at hw
  | ok fs1 =>
    have hfs : (exportSingleConfig fs outputDir config).1 = fs1 := by
      simp [exportSingleConfig, hwf]
    rw [hfs]
    exact importSingleFile_decode fs1 http client _ _ _ _ (ReadFile_WriteFile _ _ _ _ hwf)
      hbase hgAt

/-- What import infers from a dataId with a lower-case extension is what
export infers from it. -/
theorem importConfigType_eq_export (d g content : Str) (hdot : Contains d '.' = true)
    (hlow : ToLower (Ext d) = Ext d) :
    importConfigType d = exportConfigType ⟨d, g, content, []⟩ := by
  rw [exportConfigType_by_Ext]
  simp only [importConfigType, hdot, if_true, hlow]
  by_cases h1 : Ext d = ".yaml".toList
  · rw [if_pos (Or.inl h1), if_pos (Or.inr h1)]
  · by_cases h2 : Ext d = ".yml".toList
    · rw [if_pos (Or.inr h2), if_pos (Or.inl h2)]
    · rw [if_neg (not_or.mpr ⟨h1, h2⟩), if_neg (not_or.mpr ⟨h2, h1⟩)]

/-! ## C1 and C2: round trip of the bulk codec -/

/-- C1, as stated, fails.  Each of these entries meets the premises (a dataId
without `@`, a first content line neither blank nor comment-shaped, a
successful export), yet its file decodes to another entry.  A group with an
`@` moves the split point; a group with a path separator loses its first
element; a dataId with a line feed breaks the header in two; the header of an
xml entry is stripped only up to its first line; a dataId without a dot gets
the empty type and an upper-case extension is lowered on import, although
`text` is the type export infers for both. -/
theorem codec_loses_entry :
    (roundTripPremises emptyFS "out".toList
        ⟨"d".toList, "a@b".toList, "x".toList, "text".toList⟩ ∧
      (roundTrip emptyFS (fixedTransport 200 []) sampleClient "out".toList
        ⟨"d".toList, "a@b".toList, "x".toList, "text".toList⟩).published =
      some ⟨"b@d".toList, "a".toList, "x".toList, []⟩) ∧
    (roundTripPremises emptyFS "out".toList
        ⟨"d".toList, "a/b".toList, "x".toList, "text".toList⟩ ∧
      (roundTrip emptyFS (fixedTransport 200 []) sampleClient "out".toList
        ⟨"d".toList, "a/b".toList, "x".toList, "text".toList⟩).published =
      some ⟨"d".toList, "b".toList, "x".toList, []⟩) ∧
    (roundTripPremises emptyFS "out".toList
        ⟨"a\nb".toList, "g".toList, "x".toList, "text".toList⟩ ∧
      (roundTrip emptyFS (fixedTransport 200 []) sampleClient "out".toList
        ⟨"a\nb".toList, "g".toList, "x".toList, "text".toList⟩).published =
      some ⟨"a\nb".toList, "g".toList, "b\n# Group: g\n# Type: text\n\nx".toList, []⟩) ∧
    (roundTripPremises emptyFS "out".toList
        ⟨"a.xml".toList, "g".toList, "<a/>".toList, "xml".toList⟩ ∧
      (roundTrip emptyFS (fixedTransport 200 []) sampleClient "out".toList
        ⟨"a.xml".toList, "g".toList, "<a/>".toList, "xml".toList⟩).published =
      some ⟨"a.xml".toList, "g".toList,
        "DataID: a.xml\nGroup: g\nType: xml\n-->\n\n<a/>".toList, "xml".toList⟩) ∧
    (roundTripPremises emptyFS "out".toList
        ⟨"a".toList, "g".toList, "x".toList, "text".toList⟩ ∧
      exportConfigType ⟨"a".toList, "g".toList, "x".toList, []⟩ = "text".toList ∧
      (roundTrip emptyFS (fixedTransport 200 []) sampleClient "out".toList
        ⟨"a".toList, "g".toList, "x".toList, "text".toList⟩).published =
      some ⟨"a".toList, "g".toList, "x".toList, []⟩) ∧
    (roundTripPremises emptyFS "out".toList
        ⟨"a.YAML".toList, "g".toList, "x".toList, "text".toList⟩ ∧
      exportConfigType ⟨"a.YAML".toList, "g".toList, "x".toList, []⟩ = "text".toList ∧
      (roundTrip emptyFS (fixedTransport 200 []) sampleClient "out".toList
        ⟨"a.YAML".toList, "g".toList, "x".toList, "text".toList⟩).published =
      some ⟨"a.YAML".toList, "g".toList, "x".toList, "yaml".toList⟩) := by
  refine ⟨by decide, by decide, by decide, by decide, by decide, by decide⟩

/-- C1, amended: for every entry whose dataId and group hold no `@`, whose
group and dataId hold no path separator, whose group, dataId and type hold no
line feed, whose resolved type is not xml and whose first content line is
neither blank nor comment-shaped, the file a successful export wrote decodes
to the same dataId, group and content, with the type import infers from the
dataId; that type is the original one whenever the original type is the one
export infers from the dataId and the dataId has a dot and a lower-case
extension. -/
theorem codec_roundtrip_typed (fs : FileSystem) (http : Transport)
    (client : Client) (outputDir : Str) (config : Config)
    (hdAt : '@' ∉ config.DataID) (hgAt : '@' ∉ config.Group)
    (hgs : '/' ∉ config.Group) (hds : '/' ∉ config.DataID)
    (hgn : '\n' ∉ config.Group) (hdn : '\n' ∉ config.DataID) (htn : '\n' ∉ config.Typ)
    (hx : exportConfigType config ≠ "xml".toList)
    (hc : ¬ commentShaped (firstLine config.Content))
    (hw : (exportSingleConfig fs outputDir config).2 = none) :
    ∃ entry, (roundTrip fs http client outputDir config).published = some entry ∧
      entry.DataID = config.DataID ∧ entry.Group = config.Group ∧
      entry.Content = config.Content ∧ entry.Typ = importConfigType config.DataID ∧
      (config.Typ = exportConfigType { config with Typ := [] } →
        Contains config.DataID '.' = true → ToLower (Ext config.DataID) = Ext config.DataID →
        entry.Typ = config.Typ) := by
  have _ := hdAt
  rw [roundTrip_eq fs http client outputDir config hgAt hgs hds hw]
  refine ⟨_, rfl, rfl, rfl, ?_, rfl, ?_⟩
  · exact cleanContent_exportHeader config _ hx hdn hgn
      (newline_not_mem_exportConfigType config htn) ((endsHeader_iff _).mpr hc)
  · intro ht hdot hlow
    rw [ht]
    exact importConfigType_eq_export _ _ _ hdot hlow

/-- C1, amended, at the entry `app.yaml` of `DEFAULT_GROUP` with type `yaml`. -/
theorem typed_entry_survives_codec :
    roundTripPremises emptyFS "out".toList
      ⟨"app.yaml".toList, "DEFAULT_GROUP".toList, "a: 1\nb: 2".toList, "yaml".toList⟩ ∧
    ∃ entry, (roundTrip emptyFS (fixedTransport 200 []) sampleClient "out".toList
        ⟨"app.yaml".toList, "DEFAULT_GROUP".toList, "a: 1\nb: 2".toList,
          "yaml".toList⟩).published = some entry ∧
      entry.DataID = "app.yaml".toList ∧ entry.Group = "DEFAULT_GROUP".toList ∧
      entry.Content = "a: 1\nb: 2".toList ∧ entry.Typ = "yaml".toList :=
  ⟨by decide,
    match codec_roundtrip_typed emptyFS (fixedTransport 200 []) sampleClient
      "out".toList
      ⟨"app.yaml".toList, "DEFAULT_GROUP".toList, "a: 1\nb: 2".toList, "yaml".toList⟩
      (by decide) (by decide) (by decide) (by decide) (by decide) (by decide) (by decide)
      (by decide) (by decide) (by decide) with
    | ⟨entry, h1, h2, h3, h4, _, h6⟩ =>
      ⟨entry, h1, h2, h3, h4, h6 (by decide) (by decide) (by decide)⟩⟩

/-- C2: for every entry whose resolved type is not xml, whose group is not
empty and holds no `@`, whose group, dataId and type hold neither a path
separator nor a line feed, and whose content is not empty and starts with a
line that, trimmed, is not empty and begins with neither `#` nor `<!--`, the
file a successful export wrote decodes to exactly the original dataId, group
and content. -/
theorem export_then_import_restores (fs : FileSystem) (http : Transport)
    (client : Client) (outputDir : Str) (config : Config)
    (hx : exportConfigType config ≠ "xml".toList)
    (hg0 : config.Group ≠ []) (hgAt : '@' ∉ config.Group)
    (hgs : '/' ∉ config.Group) (hds : '/' ∉ config.DataID) (hts : '/' ∉ config.Typ)
    (hgn : '\n' ∉ config.Group) (hdn : '\n' ∉ config.DataID) (htn : '\n' ∉ config.Typ)
    (hc0 : config.Content ≠ [])
    (hne : TrimSpace (firstLine config.Content) ≠ [])
    (hhash : ¬ "#".toList <+: TrimSpace (firstLine config.Content))
    (hxml : ¬ "<!--".toList <+: TrimSpace (firstLine config.Content))
    (hw : (exportSingleConfig fs outputDir config).2 = none) :
    ∃ entry, (roundTrip fs http client outputDir config).published = some entry ∧
      entry.DataID = config.DataID ∧ entry.Group = config.Group ∧
      entry.Content = config.Content := by
  have _ := hg0
  have _ := hts
  have _ := hc0
  have hc : ¬ commentShaped (firstLine config.Content) := by
    unfold commentShaped
    tauto
  rw [roundTrip_eq fs http client outputDir config hgAt hgs hds hw]
  exact ⟨_, rfl, rfl, rfl, cleanContent_exportHeader config _ hx hdn hgn
    (newline_not_mem_exportConfigType config htn) ((endsHeader_iff _).mpr hc)⟩

/-- C2 at the entry of the specification: `app.yaml` of `DEFAULT_GROUP` with
content `a: 1`, `b: 2` and no type. -/
theorem app_yaml_restored :
    (exportSingleConfig emptyFS "out".toList
      ⟨"app.yaml".toList, "DEFAULT_GROUP".toList, "a: 1\nb: 2".toList, []⟩).2 = none ∧
    ∃ entry, (roundTrip emptyFS (fixedTransport 200 []) sampleClient "out".toList
        ⟨"app.yaml".toList, "DEFAULT_GROUP".toList, "a: 1\nb: 2".toList, []⟩).published =
          some entry ∧
      entry.DataID = "app.yaml".toList ∧ entry.Group = "DEFAULT_GROUP".toList ∧
      entry.Content = "a: 1\nb: 2".toList :=
  ⟨by decide,
    export_then_import_restores emptyFS (fixedTransport 200 []) sampleClient "out".toList
      ⟨"app.yaml".toList, "DEFAULT_GROUP".toList, "a: 1\nb: 2".toList, []⟩
      (by decide) (by decide) (by decide) (by decide) (by decide) (by decide) (by decide)
      (by decide) (by decide) (by decide) (by decide) (by decide) (by decide) (by decide)⟩

/-! ## C3 and C4: type inference -/

theorem suffix_iff_Ext (d e : Str) (hdot : '.' ∉ e) (hsep : '/' ∉ e) :
    ('.' :: e) <:+ d ↔ Ext d = '.' :: e :=
  List.isSuffixOf_iff_suffix.symm.trans (HasSuffix_iff_Ext d e hdot hsep)

/-- C3: for an entry without explicit type, export and list display resolve
the same type, which depends on the dataId alone: yaml for a dataId ending in
`.yml` or `.yaml`, properties for `.properties`, json for `.json`, xml for
`.xml`, text for every other dataId, among them `a.YAML` and `a`. -/
theorem type_inference_total (d g content : Str) :
    listConfigType ⟨d, g, content, []⟩ = exportConfigType ⟨d, g, content, []⟩ ∧
    (∀ g2 content2 : Str,
      exportConfigType ⟨d, g2, content2, []⟩ = exportConfigType ⟨d, g, content, []⟩ ∧
      listConfigType ⟨d, g2, content2, []⟩ = listConfigType ⟨d, g, content, []⟩) ∧
    (".yml".toList <:+ d ∨ ".yaml".toList <:+ d →
      exportConfigType ⟨d, g, content, []⟩ = "yaml".toList) ∧
    (".properties".toList <:+ d →
      exportConfigType ⟨d, g, content, []⟩ = "properties".toList) ∧
    (".json".toList <:+ d → exportConfigType ⟨d, g, content, []⟩ = "json".toList) ∧
    (".xml".toList <:+ d → exportConfigType ⟨d, g, content, []⟩ = "xml".toList) ∧
    (¬ ".yml".toList <:+ d → ¬ ".yaml".toList <:+ d → ¬ ".properties".toList <:+ d →
      ¬ ".json".toList <:+ d → ¬ ".xml".toList <:+ d →
      exportConfigType ⟨d, g, content, []⟩ = "text".toList) ∧
    exportConfigType ⟨"a.YAML".toList, g, content, []⟩ = "text".toList ∧
    exportConfigType ⟨"a".toList, g, content, []⟩ = "text".toList := by
  have hyml : ".yml".toList <:+ d ↔ Ext d = ".yml".toList :=
    suffix_iff_Ext d "yml".toList (by decide) (by decide)
  have hyaml : ".yaml".toList <:+ d ↔ Ext d = ".yaml".toList :=
    suffix_iff_Ext d "yaml".toList (by decide) (by decide)
  have hprop : ".properties".toList <:+ d ↔ Ext d = ".properties".toList :=
    suffix_iff_Ext d "properties".toList (by decide) (by decide)
  have hjson : ".json".toList <:+ d ↔ Ext d = ".json".toList :=
    suffix_iff_Ext d "json".toList (by decide) (by decide)
  have hxml : ".xml".toList <:+ d ↔ Ext d = ".xml".toList :=
    suffix_iff_Ext d "xml".toList (by decide) (by decide)
  refine ⟨rfl, fun g2 content2 => ⟨rfl, rfl⟩, ?_, ?_, ?_, ?_, ?_, rfl, rfl⟩
  · intro h
    rw [exportConfigType_by_Ext, if_pos (h.imp hyml.mp hyaml.mp)]
  · intro h
    have e := hprop.mp h
    rw [exportConfigType_by_Ext, e, if_neg (by decide), if_pos rfl]
  · intro h
    have e := hjson.mp h
    rw [exportConfigType_by_Ext, e, if_neg (by decide), if_neg (by decide), if_pos rfl]
  · intro h
    have e := hxml.mp h
    rw [exportConfigType_by_Ext, e, if_neg (by decide), if_neg (by decide),
      if_neg (by decide), if_pos rfl]
  · intro h1 h2 h3 h4 h5
    rw [exportConfigType_by_Ext, if_neg (not_or.mpr ⟨mt hyml.mpr h1, mt hyaml.mpr h2⟩),
      if_neg (mt hprop.mpr h3), if_neg (mt hjson.mpr h4), if_neg (mt hxml.mpr h5)]

/-- C3 at the dataIds `app.yml`, `app.properties`, `app.json`, `app.xml` and
`notes.txt`. -/
theorem suffix_samples_inferred :
    exportConfigType ⟨"app.yml".toList, [], [], []⟩ = "yaml".toList ∧
    exportConfigType ⟨"app.properties".toList, [], [], []⟩ = "properties".toList ∧
    exportConfigType ⟨"app.json".toList, [], [], []⟩ = "json".toList ∧
    exportConfigType ⟨"app.xml".toList, [], [], []⟩ = "xml".toList ∧
    exportConfigType ⟨"notes.txt".toList, [], [], []⟩ = "text".toList :=
  ⟨(type_inference_total "app.yml".toList [] []).2.2.1 (Or.inl (by decide)),
   (type_inference_total "app.properties".toList [] []).2.2.2.1 (by decide),
   (type_inference_total "app.json".toList [] []).2.2.2.2.1 (by decide),
   (type_inference_total "app.xml".toList [] []).2.2.2.2.2.1 (by decide),
   (type_inference_total "notes.txt".toList [] []).2.2.2.2.2.2.1 (by decide) (by decide)
     (by decide) (by decide) (by decide)⟩

theorem importSingleFile_published_Typ (fs : FileSystem) (http : Transport) (client : Client)
    (filePath : Str) (entry : Config)
    (h : (importSingleFile fs http client filePath).published = some entry) :
    entry.Typ = importConfigType entry.DataID := by
  cases hr : ReadFile fs filePath with
  | error e =>
    simp [importSingleFile, hr] at h
  | ok content =>
    by_cases hat : '@' ∈ Base filePath
    · obtain ⟨g, d, hb, hg⟩ := exists_split_at_first '@' _ hat
      rw [importSingleFile_decode fs http client filePath content g d hr hb hg] at h
      cases h
      rfl
    · rw [importSingleFile_noAt fs http client filePath content hr hat] at h
      cases h

/-- C4, as stated, fails.  Import gives the file `g@a` the empty type and the
file `g@a.YAML` type yaml; export and list display infer text for both
dataIds. -/
theorem import_type_differs :
    ((importSingleFile (oneFileFS "in/g@a".toList "x".toList) (fixedTransport 200 [])
        sampleClient "in/g@a".toList).published =
      some ⟨"a".toList, "g".toList, "x".toList, []⟩ ∧
     exportConfigType ⟨"a".toList, "g".toList, "x".toList, []⟩ = "text".toList ∧
     listConfigType ⟨"a".toList, "g".toList, "x".toList, []⟩ = "text".toList) ∧
    ((importSingleFile (oneFileFS "in/g@a.YAML".toList "x".toList) (fixedTransport 200 [])
        sampleClient "in/g@a.YAML".toList).published =
      some ⟨"a.YAML".toList, "g".toList, "x".toList, "yaml".toList⟩ ∧
     exportConfigType ⟨"a.YAML".toList, "g".toList, "x".toList, []⟩ = "text".toList ∧
     listConfigType ⟨"a.YAML".toList, "g".toList, "x".toList, []⟩ = "text".toList) := by
  decide

/-- C4, amended: whenever the dataId of the entry `importSingleFile` decodes
holds a dot and its extension, the text from its last dot on, is unchanged by
lower-casing, the type of the decoded entry is the type export and list
display infer for that dataId when no explicit type is set. -/
theorem import_type_matches_export (fs : FileSystem) (http : Transport) (client : Client)
    (filePath : Str) (entry : Config) (g content : Str)
    (h : (importSingleFile fs http client filePath).published = some entry)
    (hdot : Contains entry.DataID '.' = true)
    (hlow : ToLower (Ext entry.DataID) = Ext entry.DataID) :
    entry.Typ = exportConfigType ⟨entry.DataID, g, content, []⟩ ∧
    entry.Typ = listConfigType ⟨entry.DataID, g, content, []⟩ := by
  rw [listConfigType_eq_export, importSingleFile_published_Typ fs http client filePath entry h]
  exact ⟨importConfigType_eq_export _ _ _ hdot hlow, importConfigType_eq_export _ _ _ hdot hlow⟩

/-- C4, amended, at the file `g@app.yaml`. -/
theorem app_yaml_types_coincide :
    (importSingleFile (oneFileFS "in/g@app.yaml".toList "a: 1".toList) (fixedTransport 200 [])
        sampleClient "in/g@app.yaml".toList).published =
      some ⟨"app.yaml".toList, "g".toList, "a: 1".toList, "yaml".toList⟩ ∧
    "yaml".toList = exportConfigType ⟨"app.yaml".toList, [], [], []⟩ ∧
    "yaml".toList = listConfigType ⟨"app.yaml".toList, [], [], []⟩ :=
  ⟨by decide,
   import_type_matches_export (oneFileFS "in/g@app.yaml".toList "a: 1".toList) (fixedTransport 200 [])
     sampleClient "in/g@app.yaml".toList
     ⟨"app.yaml".toList, "g".toList, "a: 1".toList, "yaml".toList⟩ [] []
     (by decide) (by decide) (by decide)⟩

/-! ## C5: file name parsing on import -/

/-- C5, as stated, fails.  The files `@x` and `g@` have an empty part before
or after the first `@`; `importSingleFile` accepts both, hands an entry with an
empty group or dataId to `PublishConfig` and returns no error. -/
theorem import_accepts_empty_part :
    importSingleFile (oneFileFS "in/@x".toList "v".toList) (fixedTransport 200 [])
        sampleClient "in/@x".toList =
      ⟨some ⟨"x".toList, [], "v".toList, []⟩, none⟩ ∧
    importSingleFile (oneFileFS "in/g@".toList "v".toList) (fixedTransport 200 [])
        sampleClient "in/g@".toList =
      ⟨some ⟨[], "g".toList, "v".toList, []⟩, none⟩ := by
  decide

/-- C5, amended: for every readable file, `importSingleFile` accepts the base
name if and only if it holds an `@`; group is then the text before the first
`@` and dataId all the text after it, either of which may be empty, and that
entry is handed to `PublishConfig`; for a base name without `@` it fails with
the file name format error and publishes nothing. -/
theorem import_splits_at_first_at (fs : FileSystem) (http : Transport) (client : Client)
    (filePath content : Str) (hr : ReadFile fs filePath = .ok content) :
    (((importSingleFile fs http client filePath).published.isSome = true ↔
        '@' ∈ Base filePath) ∧
      ((importSingleFile fs http client filePath).err =
          some (.fileNameFormat (Base filePath)) ↔ '@' ∉ Base filePath)) ∧
    (∀ g d : Str, Base filePath = g ++ '@' :: d → '@' ∉ g →
      (importSingleFile fs http client filePath).published =
        some ⟨d, g, cleanContent content, importConfigType d⟩) ∧
    ('@' ∉ Base filePath →
      importSingleFile fs http client filePath =
        ⟨none, some (.fileNameFormat (Base filePath))⟩) := by
  refine ⟨?_, ?_, ?_⟩
  · by_cases hat : '@' ∈ Base filePath
    · obtain ⟨g, d, hb, hg⟩ := exists_split_at_first '@' _ hat
      rw [importSingleFile_decode fs http client filePath content g d hr hb hg]
      refine ⟨by simp [hat], ?_⟩
      cases PublishConfig client http ⟨d, g, cleanContent content, importConfigType d⟩ <;>
        simp [hat]
    · rw [importSingleFile_noAt fs http client filePath content hr hat]
      simp [hat]
  · intro g d hb hg
    rw [importSingleFile_decode fs http client filePath content g d hr hb hg]
  · exact importSingleFile_noAt fs http client filePath content hr

/-- C5, amended, at the files `grp@data.json` and `nogroup.json`. -/
theorem grp_data_json_parsed :
    (importSingleFile (oneFileFS "in/grp@data.json".toList "1".toList) (fixedTransport 200 [])
        sampleClient "in/grp@data.json".toList).published =
      some ⟨"data.json".toList, "grp".toList, "1".toList, "json".toList⟩ ∧
    importSingleFile (oneFileFS "in/nogroup.json".toList "1".toList) (fixedTransport 200 [])
        sampleClient "in/nogroup.json".toList =
      ⟨none, some (.fileNameFormat "nogroup.json".toList)⟩ :=
  ⟨(import_splits_at_first_at (oneFileFS "in/grp@data.json".toList "1".toList)
      (fixedTransport 200 []) sampleClient "in/grp@data.json".toList "1".toList
      rfl).2.1 "grp".toList "data.json".toList (by decide) (by decide),
   (import_splits_at_first_at (oneFileFS "in/nogroup.json".toList "1".toList)
      (fixedTransport 200 []) sampleClient "in/nogroup.json".toList "1".toList
      rfl).2.2 (by decide)⟩

/-! ## C6: header stripping -/

/-- C6 fails on a body without content line.  The file export writes for an
entry with empty content consists of header lines alone; every line of it is
skippable, the scan runs to the end with `startLine` still 0, and the whole
header is published as content, where the claim has the empty content. -/
theorem header_only_body_kept :
    (exportHeader ⟨"a".toList, "g".toList, [], []⟩ "text".toList ++ [] =
      "# Nacos配置\n# DataID: a\n# Group: g\n# Type: text\n\n".toList) ∧
    (∀ line ∈ Split '\n' "# Nacos配置\n# DataID: a\n# Group: g\n# Type: text\n\n".toList,
      commentShaped line) ∧
    cleanContent "# Nacos配置\n# DataID: a\n# Group: g\n# Type: text\n\n".toList =
      "# Nacos配置\n# DataID: a\n# Group: g\n# Type: text\n\n".toList ∧
    (roundTrip emptyFS (fixedTransport 200 []) sampleClient "out".toList
        ⟨"a".toList, "g".toList, [], []⟩).published =
      some ⟨"a".toList, "g".toList,
        "# Nacos配置\n# DataID: a\n# Group: g\n# Type: text\n\n".toList, []⟩ := by
  decide

/-! ## C7: the file an export writes -/

/-- The body of an exported file.  For every entry whose write succeeds,
`exportSingleConfig` writes to the path joined from the output directory and
group + `@` + dataId a body equal to header ++ content.  The resolved type is
the explicit type of the entry when there is one and the type inferred from
the dataId otherwise; the header is empty for json, an XML comment with the
DataID, Group and Type fields for xml, and for every other type three `# `
comment lines with these fields, one for each line, after a title line and
before one blank line.  The file is named group + `@` + dataId when neither
field holds a path separator. -/
theorem export_writes_header_and_content (fs : FileSystem) (outputDir : Str) (config : Config)
    (hw : fs.writeErr
      (FilepathJoin outputDir (config.Group ++ "@".toList ++ config.DataID)) = none) :
    (exportSingleConfig fs outputDir config).2 = none ∧
    exportConfigType config =
      (if config.Typ = [] then exportConfigType ⟨config.DataID, [], [], []⟩
       else config.Typ) ∧
    (∃ header : Str,
      ReadFile (exportSingleConfig fs outputDir config).1
          (FilepathJoin outputDir (config.Group ++ "@".toList ++ config.DataID)) =
        .ok (header ++ config.Content) ∧
      (exportConfigType config = "json".toList → header = []) ∧
      (exportConfigType config = "xml".toList →
        header = "<!-- Nacos配置\n".toList ++ "DataID: ".toList ++ config.DataID ++
          "\n".toList ++ "Group: ".toList ++ config.Group ++ "\n".toList ++
          "Type: ".toList ++ exportConfigType config ++ "\n".toList ++ "-->\n".toList ++
          "\n".toList) ∧
      (exportConfigType config ≠ "json".toList → exportConfigType config ≠ "xml".toList →
        header = "# Nacos配置\n".toList ++ "# DataID: ".toList ++ config.DataID ++
          "\n".toList ++ "# Group: ".toList ++ config.Group ++ "\n".toList ++
          "# Type: ".toList ++ exportConfigType config ++ "\n".toList ++ "\n".toList)) ∧
    (∀ p : Str, p ≠ FilepathJoin outputDir (config.Group ++ "@".toList ++ config.DataID) →
      ReadFile (exportSingleConfig fs outputDir config).1 p = ReadFile fs p) ∧
    ('/' ∉ config.Group → '/' ∉ config.DataID →
      Base (FilepathJoin outputDir (config.Group ++ "@".toList ++ config.DataID)) =
        config.Group ++ "@".toList ++ config.DataID) := by
  have hname : config.Group ++ "@".toList ++ config.DataID = exportFilename config := by
    simp [exportFilename]
  rw [hname] at hw ⊢
  have hrun : exportSingleConfig fs outputDir config =
      (⟨fun p =>
          if p = exportPath outputDir config then
            Except.ok (exportHeader config (exportConfigType config) ++ config.Content)
          else fs.files p, fs.writeErr⟩, none) := by
    simp only [exportSingleConfig, WriteFile, exportPath, hw]
  refine ⟨by rw [hrun], ?_, ⟨exportHeader config (exportConfigType config), ?_, ?_, ?_, ?_⟩,
    ?_, ?_⟩
  · unfold exportConfigType
    split <;> rfl
  · rw [hrun]
    simp [ReadFile, exportPath]
  · intro h
    rw [h]
    simp [exportHeader]
  · intro h
    rw [h]
    simp [exportHeader, xmlHeader]
  · intro h1 h2
    unfold exportHeader
    split
    · simp [hashHeader]
    · split
      · simp [hashHeader]
      · simp [hashHeader]
  · intro p hp
    rw [hrun]
    simp [ReadFile, exportPath, hp]
  · intro hg hd
    exact Base_FilepathJoin outputDir _ (properName_exportFilename config hg hd)

/-- The body of the exported file of a json entry, an xml entry and a yaml
entry. -/
theorem exported_bodies_sample :
    ReadFile (exportSingleConfig emptyFS "out".toList
        ⟨"data.json".toList, "grp".toList, "[1]".toList, []⟩).1 "out/grp@data.json".toList =
      .ok "[1]".toList ∧
    ReadFile (exportSingleConfig emptyFS "out".toList
        ⟨"a.xml".toList, "g".toList, "<a/>".toList, []⟩).1 "out/g@a.xml".toList =
      .ok "<!-- Nacos配置\nDataID: a.xml\nGroup: g\nType: xml\n-->\n\n<a/>".toList ∧
    ReadFile (exportSingleConfig emptyFS "out".toList
        ⟨"app.yaml".toList, "DEFAULT_GROUP".toList, "a: 1\nb: 2".toList, []⟩).1
        "out/DEFAULT_GROUP@app.yaml".toList =
      .ok "# Nacos配置\n# DataID: app.yaml\n# Group: DEFAULT_GROUP\n# Type: yaml\n\na: 1\nb: 2".toList :=
  ⟨match export_writes_header_and_content emptyFS "out".toList
      ⟨"data.json".toList, "grp".toList, "[1]".toList, []⟩ rfl with
    | ⟨_, _, ⟨header, h1, h2, _, _⟩, _, _⟩ => by
      rw [h2 (by decide)] at h1
      exact h1,
   match export_writes_header_and_content emptyFS "out".toList
      ⟨"a.xml".toList, "g".toList, "<a/>".toList, []⟩ rfl with
    | ⟨_, _, ⟨header, h1, _, h3, _⟩, _, _⟩ => by
      rw [h3 (by decide)] at h1
      exact h1,
   match export_writes_header_and_content emptyFS "out".toList
      ⟨"app.yaml".toList, "DEFAULT_GROUP".toList, "a: 1\nb: 2".toList, []⟩ rfl with
    | ⟨_, _, ⟨header, h1, _, _, h4⟩, _, _⟩ => by
      rw [h4 (by decide) (by decide)] at h1
      exact h1⟩

/-- C7 fails on an entry whose group or dataId holds a path separator.  The
name group + `@` + dataId goes through `filepath.Join` unescaped and is
cleaned as a path: for group `a/../b` and dataId `d` the export succeeds and
the file written under `out` is `out/b@d`, whose name is `b@d` and not
`a/../b@d`, while the header in it still names group `a/../b`; for dataId
`x/../../../etc/passwd` the path leaves the output directory and the file is
named `passwd`. -/
theorem export_name_cleaned_as_path :
    exportFilename ⟨"d".toList, "a/../b".toList, "v".toList, "text".toList⟩ =
      "a/../b@d".toList ∧
    exportPath "out".toList ⟨"d".toList, "a/../b".toList, "v".toList, "text".toList⟩ =
      "out/b@d".toList ∧
    Base (exportPath "out".toList
        ⟨"d".toList, "a/../b".toList, "v".toList, "text".toList⟩) = "b@d".toList ∧
    (exportSingleConfig emptyFS "out".toList
        ⟨"d".toList, "a/../b".toList, "v".toList, "text".toList⟩).2 = none ∧
    ReadFile (exportSingleConfig emptyFS "out".toList
        ⟨"d".toList, "a/../b".toList, "v".toList, "text".toList⟩).1 "out/b@d".toList =
      .ok "# Nacos配置\n# DataID: d\n# Group: a/../b\n# Type: text\n\nv".toList ∧
    exportPath "out".toList
        ⟨"x/../../../etc/passwd".toList, "g".toList, "v".toList, "text".toList⟩ =
      "../etc/passwd".toList ∧
    Base (exportPath "out".toList
        ⟨"x/../../../etc/passwd".toList, "g".toList, "v".toList, "text".toList⟩) =
      "passwd".toList :=
  ⟨by decide, by decide, by decide, by decide, rfl, by decide, by decide⟩

/-! ## C8: status mapping of GetConfig -/

/-- C8 fails on a non-2xx status other than 404.  On status 500 and on status
403 `GetConfig` returns an entry whose content is the body of the error
response, and no error; `PublishConfig` turns the same responses into an
error with the status code and the body.  Status 404 alone is mapped to an
error. -/
theorem getConfig_ignores_error_status :
    GetConfig sampleClient (fixedTransport 500 "Internal Server Error".toList)
        "app.yaml".toList "DEFAULT_GROUP".toList =
      .ok ⟨"app.yaml".toList, "DEFAULT_GROUP".toList, "Internal Server Error".toList, []⟩ ∧
    GetConfig sampleClient (fixedTransport 403 "Forbidden".toList)
        "app.yaml".toList "DEFAULT_GROUP".toList =
      .ok ⟨"app.yaml".toList, "DEFAULT_GROUP".toList, "Forbidden".toList, []⟩ ∧
    PublishConfig sampleClient (fixedTransport 500 "Internal Server Error".toList)
        ⟨"app.yaml".toList, "DEFAULT_GROUP".toList, "a: 1".toList, []⟩ =
      some (.publishStatus 500 "Internal Server Error".toList) ∧
    GetConfig sampleClient (fixedTransport 404 "config data not exist".toList)
        "app.yaml".toList "DEFAULT_GROUP".toList = .error .configNotExist :=
  ⟨rfl, rfl, rfl, rfl⟩

/-! ## C9 and C10: login -/

/-- A successful login: the response had status 200 and a body that parses to
the returned login response, whose token is not empty, and the client differs
from the old one in the token and its expiry alone. -/
theorem Login_ok (c : Client) (http : Transport)
    (unmarshal : Str → Except LibError LoginResponse) (now : Time) (r : LoginResponse)
    (h : (Login c http unmarshal now).2 = .ok r) :
    (∃ body, http (loginRequest c) = .response 200 body none ∧ unmarshal body = .ok r) ∧
    r.AccessToken ≠ [] ∧
    (Login c http unmarshal now).1 =
      { c with
        Token := r.AccessToken
        TokenExpiry := (now.Add (durationSeconds r.TokenTtl)).Unix } := by
  cases hx : http (loginRequest c) with
  | buildError e => simp [Login, hx] at h
  | sendError e => simp [Login, hx] at h
  | response status body readErr =>
    cases readErr with
    | some e => simp [Login, hx] at h
    | none =>
      by_cases hs : status = 200
      · subst hs
        cases hu : unmarshal body with
        | error e => simp [Login, hx, hu] at h
        | ok resp =>
          by_cases ht : resp.AccessToken = []
          · simp [Login, hx, hu, ht] at h
          · have hr : resp = r := by simpa [Login, hx, hu, ht] using h
            subst hr
            refine ⟨⟨body, rfl, hu⟩, ht, ?_⟩
            simp [Login, hx, hu, ht]
      · simp [Login, hx, hs] at h

/-- A failed login leaves the client as it was. -/
theorem Login_error (c : Client) (http : Transport)
    (unmarshal : Str → Except LibError LoginResponse) (now : Time) (e : Error)
    (h : (Login c http unmarshal now).2 = .error e) :
    (Login c http unmarshal now).1 = c := by
  cases hx : http (loginRequest c) with
  | buildError e => simp [Login, hx]
  | sendError e => simp [Login, hx]
  | response status body readErr =>
    cases readErr with
    | some e => simp [Login, hx]
    | none =>
      by_cases hs : status = 200
      · subst hs
        cases hu : unmarshal body with
        | error e => simp [Login, hx, hu]
        | ok resp =>
          by_cases ht : resp.AccessToken = []
          · simp [Login, hx, hu, ht]
          · simp [Login, hx, hu, ht] at h
      · simp [Login, hx, hs]

/-- C9: `Login` returns an error if and only if the transport fails, or the
status is not 200, or the body does not parse as the login JSON, or the parsed
access token is empty.  Every failure leaves the client, and so its Token and
TokenExpiry, unchanged; on success Token is the access token of the response
and no field other than Token and TokenExpiry changes. -/
theorem login_fails_iff_and_atomic (c : Client) (http : Transport)
    (unmarshal : Str → Except LibError LoginResponse) (now : Time) :
    ((∃ e, (Login c http unmarshal now).2 = .error e) ↔
      ((http (loginRequest c)).failed = true ∨
        ∃ status body, http (loginRequest c) = .response status body none ∧
          (status ≠ 200 ∨ (∃ e, unmarshal body = .error e) ∨
            ∃ r, unmarshal body = .ok r ∧ r.AccessToken = []))) ∧
    (∀ e, (Login c http unmarshal now).2 = .error e →
      (Login c http unmarshal now).1 = c ∧
      (Login c http unmarshal now).1.Token = c.Token ∧
      (Login c http unmarshal now).1.TokenExpiry = c.TokenExpiry) ∧
    (∀ r, (Login c http unmarshal now).2 = .ok r →
      (∃ body, http (loginRequest c) = .response 200 body none ∧ unmarshal body = .ok r) ∧
      (Login c http unmarshal now).1.Token = r.AccessToken ∧
      (Login c http unmarshal now).1.ServerURL = c.ServerURL ∧
      (Login c http unmarshal now).1.Username = c.Username ∧
      (Login c http unmarshal now).1.Password = c.Password ∧
      (Login c http unmarshal now).1.Namespace = c.Namespace) := by
  refine ⟨?_, ?_, ?_⟩
  · unfold Login
    cases hx : http (loginRequest c) with
    | buildError e => simp [Exchange.failed]
    | sendError e => simp [Exchange.failed]
    | response status body readErr =>
      cases readErr with
      | some e => simp [Exchange.failed]
      | none =>
        by_cases hs : status = 200
        · subst hs
          cases hu : unmarshal body with
          | error e =>
            simp [Exchange.failed, hu]
            exact ⟨200, body, ⟨rfl, rfl⟩, Or.inr (Or.inl ⟨e, hu⟩)⟩
          | ok resp =>
            by_cases ht : resp.AccessToken = []
            · simp [Exchange.failed, hu, ht]
              exact ⟨200, body, ⟨rfl, rfl⟩, Or.inr (Or.inr ⟨resp, hu, ht⟩)⟩
            · simp [Exchange.failed, hu, ht]
        · simp [Exchange.failed, hs]
          exact ⟨status, body, ⟨rfl, rfl⟩, Or.inl hs⟩
  · intro e h
    have := Login_error c http unmarshal now e h
    exact ⟨this, by rw [this], by rw [this]⟩
  · intro r h
    obtain ⟨h1, _, h3⟩ := Login_ok c http unmarshal now r h
    refine ⟨h1, ?_, ?_, ?_, ?_, ?_⟩ <;> rw [h3]

/-- C9 at a response with status 401 and at a response with a token. -/
theorem login_samples_atomic :
    (Login sampleClient (fixedTransport 401 "unauthorized".toList) (fun _ => .error [])
        ⟨1700000000, 0⟩).1 = sampleClient ∧
    (Login sampleClient (fixedTransport 200 [])
        (fun _ => .ok ⟨"tok".toList, 18000, false⟩) ⟨1700000000, 0⟩).1.Token = "tok".toList :=
  ⟨((login_fails_iff_and_atomic sampleClient (fixedTransport 401 "unauthorized".toList)
      (fun _ => .error []) ⟨1700000000, 0⟩).2.1 _ rfl).1,
   ((login_fails_iff_and_atomic sampleClient (fixedTransport 200 [])
      (fun _ => .ok ⟨"tok".toList, 18000, false⟩) ⟨1700000000, 0⟩).2.2 _ rfl).2.1⟩

theorem durationSeconds_eq (ttl : Int) (h0 : 0 < ttl) (h1 : ttl ≤ 9223372036) :
    durationSeconds ttl = ttl * 1000000000 := by
  unfold durationSeconds wrapInt64
  omega

theorem Add_seconds (now : Time) (ttl : Int) (hn0 : 0 ≤ now.nsec)
    (hn1 : now.nsec < 1000000000) :
    (now.Add (ttl * 1000000000)).Unix = now.Unix + ttl := by
  have hd : (ttl * 1000000000).tdiv 1000000000 = ttl :=
    Int.mul_tdiv_cancel ttl (by decide)
  have hm : (ttl * 1000000000).tmod 1000000000 = 0 := Int.mul_tmod_left ttl 1000000000
  unfold Time.Add
  simp only [hd, hm, add_zero, ge_iff_le]
  rw [if_neg (by omega), if_neg (by omega)]
  rfl

/-- C10, as stated, fails.  A login response with a time to live of
9223372037 seconds is accepted; the duration in nanoseconds wraps around in
its `int64`, the stored expiry lies before the login instant, and the token
does not pass the validity check at that instant. -/
theorem token_expiry_wraps :
    (Login sampleClient (fixedTransport 200 [])
        (fun _ => .ok ⟨"tok".toList, 9223372037, false⟩) ⟨1700000000, 0⟩).2 =
      .ok ⟨"tok".toList, 9223372037, false⟩ ∧
    (Login sampleClient (fixedTransport 200 [])
        (fun _ => .ok ⟨"tok".toList, 9223372037, false⟩) ⟨1700000000, 0⟩).1.TokenExpiry =
      -7523372037 ∧
    (-7523372037 : Int) ≠ 1700000000 + 9223372037 ∧
    tokenUsable
      (Login sampleClient (fixedTransport 200 [])
        (fun _ => .ok ⟨"tok".toList, 9223372037, false⟩) ⟨1700000000, 0⟩).1.Token
      (Login sampleClient (fixedTransport 200 [])
        (fun _ => .ok ⟨"tok".toList, 9223372037, false⟩) ⟨1700000000, 0⟩).1.TokenExpiry
      ⟨1700000000, 0⟩ = false :=
  ⟨rfl, by decide, by decide, by decide⟩

/-- C10, amended: for every successful login at instant `now` whose time to
live is positive and at most 9223372036 seconds, so that its nanoseconds fit
an `int64`, the stored TokenExpiry is `now` + ttlSeconds in Unix seconds; the
token passes the validity check at `now` and fails it at every instant from
`now` + ttlSeconds on. -/
theorem token_expiry_is_now_plus_ttl (c : Client) (http : Transport)
    (unmarshal : Str → Except LibError LoginResponse) (now : Time) (r : LoginResponse)
    (hok : (Login c http unmarshal now).2 = .ok r)
    (hn0 : 0 ≤ now.nsec) (hn1 : now.nsec < 1000000000)
    (hpos : 0 < r.TokenTtl) (hmax : r.TokenTtl ≤ 9223372036) :
    (Login c http unmarshal now).1.TokenExpiry = now.Unix + r.TokenTtl ∧
    tokenUsable (Login c http unmarshal now).1.Token
      (Login c http unmarshal now).1.TokenExpiry now = true ∧
    ∀ t : Time, t.Unix ≥ now.Unix + r.TokenTtl →
      tokenUsable (Login c http unmarshal now).1.Token
        (Login c http unmarshal now).1.TokenExpiry t = false := by
  obtain ⟨_, htok, hc⟩ := Login_ok c http unmarshal now r hok
  have hexp : (Login c http unmarshal now).1.TokenExpiry = now.Unix + r.TokenTtl := by
    rw [hc]
    show (now.Add (durationSeconds r.TokenTtl)).Unix = _
    rw [durationSeconds_eq _ hpos hmax, Add_seconds now _ hn0 hn1]
  have htoken : (Login c http unmarshal now).1.Token = r.AccessToken := by rw [hc]
  refine ⟨hexp, ?_, ?_⟩
  · rw [hexp, htoken]
    simp only [tokenUsable, bne_iff_ne, ne_eq, htok, not_false_eq_true, Bool.and_eq_true,
      decide_eq_true_eq, true_and]
    omega
  · intro t ht
    rw [hexp, htoken]
    simp only [tokenUsable, Bool.and_eq_false_imp, decide_eq_false_iff_not]
    intro _
    omega

/-- C10, amended, at a login with a time to live of 18000 seconds. -/
theorem ttl_18000_expiry :
    (Login sampleClient (fixedTransport 200 [])
        (fun _ => .ok ⟨"tok".toList, 18000, false⟩) ⟨1700000000, 5⟩).1.TokenExpiry =
      1700018000 ∧
    tokenUsable "tok".toList 1700018000 ⟨1700000000, 5⟩ = true ∧
    tokenUsable "tok".toList 1700018000 ⟨1700018000, 0⟩ = false :=
  match token_expiry_is_now_plus_ttl sampleClient (fixedTransport 200 [])
      (fun _ => .ok ⟨"tok".toList, 18000, false⟩) ⟨1700000000, 5⟩
      ⟨"tok".toList, 18000, false⟩ rfl (by decide) (by decide) (by decide) (by decide) with
  | ⟨h1, _, _⟩ => ⟨h1, by decide, by decide⟩

/-! ## C11 and C12: the persisted token -/

/-- C11: for every persisted token and expiry and every clock reading,
`createClient` returns a client that carries the persisted token and expiry
if and only if the token is not empty and the clock is before the expiry; in
every other case the client has the empty Token and TokenExpiry 0.  A client
built by `createClient` so never carries a token that has expired.  Carrying
the token is read as holding it as a non-empty Token. -/
theorem createClient_keeps_live_token (s : Settings) (now : Time) :
    (s.token ≠ [] ∧ now.Unix < s.tokenExpiry →
      (createClient s now).Token = s.token ∧
      (createClient s now).TokenExpiry = s.tokenExpiry) ∧
    (¬ (s.token ≠ [] ∧ now.Unix < s.tokenExpiry) →
      (createClient s now).Token = [] ∧ (createClient s now).TokenExpiry = 0) ∧
    (((createClient s now).Token ≠ [] ∧ (createClient s now).Token = s.token ∧
        (createClient s now).TokenExpiry = s.tokenExpiry) ↔
      (s.token ≠ [] ∧ now.Unix < s.tokenExpiry)) ∧
    ((createClient s now).Token ≠ [] → now.Unix < (createClient s now).TokenExpiry) ∧
    (createClient s now).ServerURL = TrimSuffixSlash s.server ∧
    (createClient s now).Username = s.username ∧
    (createClient s now).Password = s.password ∧
    (createClient s now).Namespace = s.namespace_ := by
  by_cases h : s.token ≠ [] ∧ now.Unix < s.tokenExpiry
  · have hu : tokenUsable s.token s.tokenExpiry now = true := by
      simp [tokenUsable, h.1, h.2]
    have hc : createClient s now =
        { NewClient s.server s.username s.password s.namespace_ with
          Token := s.token, TokenExpiry := s.tokenExpiry } := by
      simp [createClient, hu]
    rw [hc]
    exact ⟨fun _ => ⟨rfl, rfl⟩, fun h2 => absurd h h2,
      ⟨fun _ => h, fun _ => ⟨h.1, rfl, rfl⟩⟩, fun _ => h.2, rfl, rfl, rfl, rfl⟩
  · have hu : tokenUsable s.token s.tokenExpiry now = false := by
      simp only [tokenUsable, Bool.and_eq_false_imp, bne_iff_ne, ne_eq,
        decide_eq_false_iff_not]
      intro h1 h2
      exact h ⟨h1, h2⟩
    have hc : createClient s now = NewClient s.server s.username s.password s.namespace_ := by
      simp [createClient, hu]
    rw [hc]
    exact ⟨fun h2 => absurd h2 h, fun _ => ⟨rfl, rfl⟩,
      ⟨fun h2 => absurd rfl h2.1, fun h2 => absurd h2 h⟩, fun h2 => absurd rfl h2,
      rfl, rfl, rfl, rfl⟩

/-- C11 at a live token, at an expired token and at no token. -/
theorem persisted_token_samples :
    (createClient ⟨[], [], [], [], "tok".toList, 1700000500⟩ ⟨1700000000, 0⟩).Token =
      "tok".toList ∧
    (createClient ⟨[], [], [], [], "tok".toList, 1700000500⟩ ⟨1700000000, 0⟩).TokenExpiry =
      1700000500 ∧
    (createClient ⟨[], [], [], [], "tok".toList, 1700000000⟩ ⟨1700000000, 0⟩).Token = [] ∧
    (createClient ⟨[], [], [], [], [], 1700000500⟩ ⟨1700000000, 0⟩).TokenExpiry = 0 :=
  ⟨((createClient_keeps_live_token ⟨[], [], [], [], "tok".toList, 1700000500⟩
      ⟨1700000000, 0⟩).1 (by decide)).1,
   ((createClient_keeps_live_token ⟨[], [], [], [], "tok".toList, 1700000500⟩
      ⟨1700000000, 0⟩).1 (by decide)).2,
   ((createClient_keeps_live_token ⟨[], [], [], [], "tok".toList, 1700000000⟩
      ⟨1700000000, 0⟩).2.1 (by decide)).1,
   ((createClient_keeps_live_token ⟨[], [], [], [], [], 1700000500⟩
      ⟨1700000000, 0⟩).2.1 (by decide)).2⟩

/-- C12 fails on every live persisted token.  With the token `cached`, valid
for another 1000 seconds, `createClient` puts the token on the client, yet
`getConfigCmd` sends the login request first and sends the get request with
the token of the login response, `fresh`, in its bearer header; when the
login is refused the command fails after the login request alone and the
cached token is never used. -/
theorem cached_token_not_reused :
    (createClient ⟨"http://n".toList, "u".toList, "p".toList, [], "cached".toList, 1700001000⟩
        ⟨1700000000, 0⟩).Token = "cached".toList ∧
    (getConfigCmd ⟨"http://n".toList, "u".toList, "p".toList, [], "cached".toList, 1700001000⟩
        (fixedTransport 200 "a: 1".toList) (fun _ => .ok ⟨"fresh".toList, 18000, false⟩)
        ⟨1700000000, 0⟩ ⟨1700000000, 0⟩ "app.yaml".toList "DEFAULT_GROUP".toList).sent =
      [loginRequest ⟨"http://n".toList, "u".toList, "p".toList, [], "cached".toList, 1700001000⟩,
       getConfigRequest ⟨"http://n".toList, "u".toList, "p".toList, [], "fresh".toList, 1700018000⟩
         "app.yaml".toList "DEFAULT_GROUP".toList] ∧
    (getConfigRequest ⟨"http://n".toList, "u".toList, "p".toList, [], "fresh".toList, 1700018000⟩
        "app.yaml".toList "DEFAULT_GROUP".toList).headerValue "Authorization".toList =
      some "Bearer fresh".toList ∧
    (getConfigCmd ⟨"http://n".toList, "u".toList, "p".toList, [], "cached".toList, 1700001000⟩
        (fixedTransport 500 "down".toList) (fun _ => .ok ⟨"fresh".toList, 18000, false⟩)
        ⟨1700000000, 0⟩ ⟨1700000000, 0⟩ "app.yaml".toList "DEFAULT_GROUP".toList).sent =
      [loginRequest ⟨"http://n".toList, "u".toList, "p".toList, [], "cached".toList, 1700001000⟩] ∧
    (getConfigCmd ⟨"http://n".toList, "u".toList, "p".toList, [], "cached".toList, 1700001000⟩
        (fixedTransport 500 "down".toList) (fun _ => .ok ⟨"fresh".toList, 18000, false⟩)
        ⟨1700000000, 0⟩ ⟨1700000000, 0⟩ "app.yaml".toList "DEFAULT_GROUP".toList).result =
      .error (.loginStatus 500 "down".toList) :=
  ⟨by decide, by decide, by decide, by decide, rfl⟩

/-! ## C13: the export loop -/

theorem GetConfig_ok_fields (c : Client) (http : Transport) (dataID group : Str)
    (full : Config) (h : GetConfig c http dataID group = .ok full) :
    full.DataID = dataID ∧ full.Group = group := by
  unfold GetConfig at h
  split at h
  · cases h
  · cases h
  · split at h
    · cases h
    · split at h
      · cases h
      · cases h
        exact ⟨rfl, rfl⟩

theorem exportPath_eq_exportTarget (outputDir : Str) (config full : Config)
    (hd : full.DataID = config.DataID) (hg : full.Group = config.Group) :
    exportPath outputDir full = exportTarget outputDir config := by
  simp [exportPath, exportTarget, exportFilename, hd, hg]

/-- A round of the export loop on an entry whose fetch and write succeed: the
file is written, the counter goes up by one, nothing else changes. -/
theorem exportRound_success (client : Client) (http : Transport) (fs : FileSystem)
    (outputDir : Str) (run : ExportRun) (config : Config)
    (hw : run.fs.writeErr = fs.writeErr)
    (h : exportSucceeds client http fs outputDir config = true) :
    ∃ body, exportRound client http outputDir run config =
      ⟨⟨fun p => if p = exportTarget outputDir config then .ok body else run.fs.files p,
          run.fs.writeErr⟩,
        run.exportCount + 1, run.written ++ [exportTarget outputDir config], run.failed⟩ := by
  unfold exportSucceeds at h
  cases hget : GetConfig client http config.DataID config.Group with
  | error e => simp [hget] at h
  | ok full =>
    obtain ⟨hd, hg⟩ := GetConfig_ok_fields _ _ _ _ _ hget
    have hp := exportPath_eq_exportTarget outputDir config full hd hg
    simp only [hget, hp, Option.isNone_iff_eq_none] at h
    refine ⟨exportHeader full (exportConfigType full) ++ full.Content, ?_⟩
    simp [exportRound, hget, exportSingleConfig, WriteFile, hp, hw, h]

/-- A round of the export loop on an entry whose fetch or write fails: the
failure is recorded, nothing else changes. -/
theorem exportRound_failure (client : Client) (http : Transport) (fs : FileSystem)
    (outputDir : Str) (run : ExportRun) (config : Config)
    (hw : run.fs.writeErr = fs.writeErr)
    (h : exportSucceeds client http fs outputDir config = false) :
    ∃ err, exportRound client http outputDir run config =
      ⟨run.fs, run.exportCount, run.written, run.failed ++ [(config, err)]⟩ := by
  unfold exportSucceeds at h
  cases hget : GetConfig client http config.DataID config.Group with
  | error e => exact ⟨e, by simp [exportRound, hget]⟩
  | ok full =>
    simp only [hget, Option.isNone_eq_false_iff, Option.isSome_iff_exists] at h
    obtain ⟨e, he⟩ := h
    refine ⟨.writeFile e, ?_⟩
    simp [exportRound, hget, exportSingleConfig, WriteFile, hw, he]

/-- The export loop from any intermediate state on. -/
theorem exportLoop_from (client : Client) (http : Transport) (fs : FileSystem)
    (outputDir : Str) (configs : List Config) (run0 : ExportRun)
    (hw : run0.fs.writeErr = fs.writeErr) :
    (configs.foldl (exportRound client http outputDir) run0).fs.writeErr = fs.writeErr ∧
    (configs.foldl (exportRound client http outputDir) run0).exportCount =
      run0.exportCount + (configs.filter (exportSucceeds client http fs outputDir)).length ∧
    (configs.foldl (exportRound client http outputDir) run0).written =
      run0.written ++
        (configs.filter (exportSucceeds client http fs outputDir)).map
          (exportTarget outputDir) ∧
    (configs.foldl (exportRound client http outputDir) run0).failed.map Prod.fst =
      run0.failed.map Prod.fst ++
        configs.filter (fun c => !exportSucceeds client http fs outputDir c) ∧
    (∀ p, p ∉ (configs.filter (exportSucceeds client http fs outputDir)).map
          (exportTarget outputDir) →
      (configs.foldl (exportRound client http outputDir) run0).fs.files p = run0.fs.files p) ∧
    (∀ p, (∃ body, run0.fs.files p = .ok body) →
      ∃ body, (configs.foldl (exportRound client http outputDir) run0).fs.files p =
        .ok body) ∧
    (∀ config ∈ configs, exportSucceeds client http fs outputDir config = true →
      ∃ body, (configs.foldl (exportRound client http outputDir) run0).fs.files
        (exportTarget outputDir config) = .ok body) := by
  induction configs generalizing run0 with
  | nil => simp [hw]
  | cons c cs ih =>
    rw [List.foldl_cons]
    cases hs : exportSucceeds client http fs outputDir c with
    | true =>
      obtain ⟨body, hr⟩ := exportRound_success client http fs outputDir run0 c hw hs
      have ih1 := ih (exportRound client http outputDir run0 c) (by rw [hr]; exact hw)
      rw [hr] at ih1 ⊢
      dsimp only at ih1
      obtain ⟨h1, h2, h3, h4, h5, h6, h7⟩ := ih1
      refine ⟨h1, ?_, ?_, ?_, ?_, ?_, ?_⟩
      · rw [h2]
        simp [List.filter_cons, hs]
        omega
      · rw [h3]
        simp [List.filter_cons, hs]
      · rw [h4]
        simp [List.filter_cons, hs]
      · intro p hp
        have hp1 : p ≠ exportTarget outputDir c := by
          intro e
          apply hp
          simp [List.filter_cons, hs, e]
        have hp2 : p ∉ (cs.filter (exportSucceeds client http fs outputDir)).map
            (exportTarget outputDir) := by
          intro m
          apply hp
          simp only [List.filter_cons, hs, if_true, List.map_cons, List.mem_cons]
          exact Or.inr m
        rw [h5 p hp2]
        simp [hp1]
      · intro p ⟨b, hb⟩
        apply h6
        by_cases e : p = exportTarget outputDir c
        · exact ⟨body, by simp [e]⟩
        · exact ⟨b, by simp [e, hb]⟩
      · intro config hm hsucc
        rcases List.mem_cons.mp hm with e | m
        · subst e
          exact h6 _ ⟨body, by simp⟩
        · exact h7 config m hsucc
    | false =>
      obtain ⟨err, hr⟩ := exportRound_failure client http fs outputDir run0 c hw hs
      have ih1 := ih (exportRound client http outputDir run0 c) (by rw [hr]; exact hw)
      rw [hr] at ih1 ⊢
      dsimp only at ih1
      obtain ⟨h1, h2, h3, h4, h5, h6, h7⟩ := ih1
      refine ⟨h1, ?_, ?_, ?_, ?_, h6, ?_⟩
      · rw [h2]
        simp [List.filter_cons, hs]
      · rw [h3]
        simp [List.filter_cons, hs]
      · rw [h4]
        simp [List.filter_cons, hs]
      · intro p hp
        apply h5
        simpa [List.filter_cons, hs] using hp
      · intro config hm hsucc
        rcases List.mem_cons.mp hm with e | m
        · subst e
          rw [hs] at hsucc
          cases hsucc
        · exact h7 config m hsucc

theorem filter_length_add (p : Config → Bool) (l : List Config) :
    (l.filter p).length + (l.filter (fun c => !p c)).length = l.length := by
  induction l with
  | nil => rfl
  | cons c cs ih =>
    cases hs : p c <;> simp [List.filter_cons, hs] <;> omega

/-- The export loop against the results of `GetConfig`.  For every list of
entries and every transport and file system, the loop handles every entry in
list order and an error stops nothing: the files written are those of exactly
the entries for which `GetConfig` returns no error and the write succeeds, in
list order, every other entry is recorded as failed, in list order,
`exportCount` is the number of files written, each of these entries has its
file in the end, and no other path is touched. -/
theorem export_loop_isolates_failures (client : Client) (http : Transport)
    (fs : FileSystem) (outputDir : Str) (configs : List Config) :
    (exportLoop client http fs outputDir configs).exportCount =
      (configs.filter (exportSucceeds client http fs outputDir)).length ∧
    (exportLoop client http fs outputDir configs).written =
      (configs.filter (exportSucceeds client http fs outputDir)).map
        (exportTarget outputDir) ∧
    (exportLoop client http fs outputDir configs).failed.map Prod.fst =
      configs.filter (fun c => !exportSucceeds client http fs outputDir c) ∧
    (exportLoop client http fs outputDir configs).written.length +
      (exportLoop client http fs outputDir configs).failed.length = configs.length ∧
    (∀ config ∈ configs, exportSucceeds client http fs outputDir config = true →
      ∃ body, ReadFile (exportLoop client http fs outputDir configs).fs
        (exportTarget outputDir config) = .ok body) ∧
    (∀ p, p ∉ (exportLoop client http fs outputDir configs).written →
      ReadFile (exportLoop client http fs outputDir configs).fs p = ReadFile fs p) := by
  obtain ⟨_, h2, h3, h4, h5, _, h7⟩ :=
    exportLoop_from client http fs outputDir configs ⟨fs, 0, [], []⟩ rfl
  have hlen : ((configs.filter (exportSucceeds client http fs outputDir)).map
        (exportTarget outputDir)).length +
      (configs.filter (fun c => !exportSucceeds client http fs outputDir c)).length =
      configs.length := by
    rw [List.length_map]
    exact filter_length_add _ configs
  unfold exportLoop
  refine ⟨by simpa using h2, by simpa using h3, by simpa using h4, ?_, h7, ?_⟩
  · have hl := congrArg List.length h4
    rw [List.length_map] at hl
    rw [h3, hl]
    simpa using hlen
  · intro p hp
    rw [h3] at hp
    exact h5 p (by simpa using hp)

/-- The export loop at five listed entries of which the third is answered with
status 404: four files are written and the count is 4. -/
theorem five_entries_one_missing :
    (exportLoop sampleClient (missingOne "c".toList "v".toList) emptyFS "out".toList
      [⟨"a".toList, "g".toList, [], []⟩, ⟨"b".toList, "g".toList, [], []⟩,
       ⟨"c".toList, "g".toList, [], []⟩, ⟨"d".toList, "g".toList, [], []⟩,
       ⟨"e".toList, "g".toList, [], []⟩]).exportCount = 4 ∧
    (exportLoop sampleClient (missingOne "c".toList "v".toList) emptyFS "out".toList
      [⟨"a".toList, "g".toList, [], []⟩, ⟨"b".toList, "g".toList, [], []⟩,
       ⟨"c".toList, "g".toList, [], []⟩, ⟨"d".toList, "g".toList, [], []⟩,
       ⟨"e".toList, "g".toList, [], []⟩]).written =
      ["out/g@a".toList, "out/g@b".toList, "out/g@d".toList, "out/g@e".toList] :=
  ⟨(export_loop_isolates_failures sampleClient (missingOne "c".toList "v".toList) emptyFS
      "out".toList _).1.trans (by decide),
   (export_loop_isolates_failures sampleClient (missingOne "c".toList "v".toList) emptyFS
      "out".toList _).2.1.trans (by decide)⟩

/-- C13 fails on a fetch that the server refuses with a status other than
404.  Of five listed entries the fetch of the third is answered with status
500; `GetConfig` tests status 404 alone and returns the error body as the
content of the entry, so the loop records no failure, writes five files, the
third holding the error body under its header, and counts 5, where the claim
has four files and count 4.  With the same fetch answered 404 the loop writes
four files and counts 4. -/
theorem refused_fetch_is_exported :
    (exportLoop sampleClient
      (refusedOne 500 "c".toList "Internal Server Error".toList "v".toList) emptyFS
      "out".toList
      [⟨"a".toList, "g".toList, [], []⟩, ⟨"b".toList, "g".toList, [], []⟩,
       ⟨"c".toList, "g".toList, [], []⟩, ⟨"d".toList, "g".toList, [], []⟩,
       ⟨"e".toList, "g".toList, [], []⟩]).exportCount = 5 ∧
    (exportLoop sampleClient
      (refusedOne 500 "c".toList "Internal Server Error".toList "v".toList) emptyFS
      "out".toList
      [⟨"a".toList, "g".toList, [], []⟩, ⟨"b".toList, "g".toList, [], []⟩,
       ⟨"c".toList, "g".toList, [], []⟩, ⟨"d".toList, "g".toList, [], []⟩,
       ⟨"e".toList, "g".toList, [], []⟩]).written =
      ["out/g@a".toList, "out/g@b".toList, "out/g@c".toList, "out/g@d".toList,
       "out/g@e".toList] ∧
    (exportLoop sampleClient
      (refusedOne 500 "c".toList "Internal Server Error".toList "v".toList) emptyFS
      "out".toList
      [⟨"a".toList, "g".toList, [], []⟩, ⟨"b".toList, "g".toList, [], []⟩,
       ⟨"c".toList, "g".toList, [], []⟩, ⟨"d".toList, "g".toList, [], []⟩,
       ⟨"e".toList, "g".toList, [], []⟩]).failed = [] ∧
    ReadFile (exportLoop sampleClient
      (refusedOne 500 "c".toList "Internal Server Error".toList "v".toList) emptyFS
      "out".toList
      [⟨"a".toList, "g".toList, [], []⟩, ⟨"b".toList, "g".toList, [], []⟩,
       ⟨"c".toList, "g".toList, [], []⟩, ⟨"d".toList, "g".toList, [], []⟩,
       ⟨"e".toList, "g".toList, [], []⟩]).fs "out/g@c".toList =
      .ok "# Nacos配置\n# DataID: c\n# Group: g\n# Type: text\n\nInternal Server Error".toList ∧
    (exportLoop sampleClient
      (refusedOne 404 "c".toList "config data not exist".toList "v".toList) emptyFS
      "out".toList
      [⟨"a".toList, "g".toList, [], []⟩, ⟨"b".toList, "g".toList, [], []⟩,
       ⟨"c".toList, "g".toList, [], []⟩, ⟨"d".toList, "g".toList, [], []⟩,
       ⟨"e".toList, "g".toList, [], []⟩]).exportCount = 4 ∧
    (exportLoop sampleClient
      (refusedOne 404 "c".toList "config data not exist".toList "v".toList) emptyFS
      "out".toList
      [⟨"a".toList, "g".toList, [], []⟩, ⟨"b".toList, "g".toList, [], []⟩,
       ⟨"c".toList, "g".toList, [], []⟩, ⟨"d".toList, "g".toList, [], []⟩,
       ⟨"e".toList, "g".toList, [], []⟩]).failed =
      [(⟨"c".toList, "g".toList, [], []⟩, .configNotExist)] :=
  ⟨by decide, by decide, by decide, rfl, by decide, by decide⟩

/-! ## C14: the status test of the write operations -/

/-- C14, as stated, fails.  Status 201 and status 204 are 2xx, yet each of the
four write operations returns its status error for them. -/
theorem write_operations_reject_201 :
    PublishConfig sampleClient (fixedTransport 201 "created".toList)
        ⟨"app.yaml".toList, "DEFAULT_GROUP".toList, "a: 1".toList, []⟩ =
      some (.publishStatus 201 "created".toList) ∧
    DeleteConfig sampleClient (fixedTransport 204 []) "app.yaml".toList
        "DEFAULT_GROUP".toList = some (.deleteStatus 204 []) ∧
    CreateNamespace sampleClient (fixedTransport 201 "created".toList) "dev".toList
        "dev".toList [] = some (.createNamespaceStatus 201 "created".toList) ∧
    DeleteNamespace sampleClient (fixedTransport 204 []) "dev".toList =
      some (.deleteNamespaceStatus 204 []) := by
  decide

/-- C14, amended: for every response whose body is read without error,
`PublishConfig`, `DeleteConfig`, `CreateNamespace` and `DeleteNamespace`
return an error, carrying the status code and the raw response body, if and
only if the status is not 200, 404 on `DeleteConfig` included, and return
success for status 200 alone. -/
theorem write_operations_accept_200_only (c : Client) (http : Transport)
    (config : Config) (dataID group namespaceId namespaceName namespaceDesc : Str)
    (status : Int) (body : Str)
    (hp : http (publishConfigRequest c config) = .response status body none)
    (hd : http (deleteConfigRequest c dataID group) = .response status body none)
    (hc : http (createNamespaceRequest c namespaceId namespaceName namespaceDesc) =
      .response status body none)
    (hn : http (deleteNamespaceRequest c namespaceId) = .response status body none) :
    ((PublishConfig c http config = none ↔ status = 200) ∧
      (status ≠ 200 → PublishConfig c http config = some (.publishStatus status body))) ∧
    ((DeleteConfig c http dataID group = none ↔ status = 200) ∧
      (status ≠ 200 → DeleteConfig c http dataID group = some (.deleteStatus status body))) ∧
    ((CreateNamespace c http namespaceId namespaceName namespaceDesc = none ↔ status = 200) ∧
      (status ≠ 200 → CreateNamespace c http namespaceId namespaceName namespaceDesc =
        some (.createNamespaceStatus status body))) ∧
    ((DeleteNamespace c http namespaceId = none ↔ status = 200) ∧
      (status ≠ 200 → DeleteNamespace c http namespaceId =
        some (.deleteNamespaceStatus status body))) := by
  by_cases hs : status = 200
  · simp [PublishConfig, DeleteConfig, CreateNamespace, DeleteNamespace, hp, hd, hc, hn, hs]
  · simp [PublishConfig, DeleteConfig, CreateNamespace, DeleteNamespace, hp, hd, hc, hn, hs]

/-- C14, amended, at status 404 on `DeleteConfig` and at status 200. -/
theorem delete_404_is_error :
    DeleteConfig sampleClient (fixedTransport 404 "gone".toList) "app.yaml".toList
        "DEFAULT_GROUP".toList = some (.deleteStatus 404 "gone".toList) ∧
    PublishConfig sampleClient (fixedTransport 200 "true".toList)
        ⟨"app.yaml".toList, "DEFAULT_GROUP".toList, "a: 1".toList, []⟩ = none :=
  ⟨(write_operations_accept_200_only sampleClient (fixedTransport 404 "gone".toList)
      ⟨"app.yaml".toList, "DEFAULT_GROUP".toList, "a: 1".toList, []⟩ "app.yaml".toList
      "DEFAULT_GROUP".toList "dev".toList "dev".toList [] 404 "gone".toList
      rfl rfl rfl rfl).2.1.2 (by decide),
   (write_operations_accept_200_only sampleClient (fixedTransport 200 "true".toList)
      ⟨"app.yaml".toList, "DEFAULT_GROUP".toList, "a: 1".toList, []⟩ "app.yaml".toList
      "DEFAULT_GROUP".toList "dev".toList "dev".toList [] 200 "true".toList
      rfl rfl rfl rfl).1.1.mpr rfl⟩

/-! ## C15: the two layers of ListNamespaces -/

/-- C15: for every response, `ListNamespaces` returns an error when the status
is not 200, when the body does not parse as the envelope, and when the status
is 200 but the code of the envelope is not 200, the error then carrying the
message of the envelope; it returns the data of the envelope only when status
and code are both 200. -/
theorem listNamespaces_checks_both_layers (c : Client) (http : Transport)
    (unmarshal : Str → Except LibError NamespaceEnvelope) (status : Int) (body : Str)
    (hx : http (listNamespacesRequest c) = .response status body none) :
    (status ≠ 200 →
      ListNamespaces c http unmarshal = .error (.namespacesStatus status body)) ∧
    (∀ e, status = 200 → unmarshal body = .error e →
      ListNamespaces c http unmarshal = .error (.namespacesParse e body)) ∧
    (∀ env, status = 200 → unmarshal body = .ok env → env.Code ≠ 200 →
      ListNamespaces c http unmarshal = .error (.apiFailed env.Message)) ∧
    (∀ env, status = 200 → unmarshal body = .ok env → env.Code = 200 →
      ListNamespaces c http unmarshal = .ok env.Data) ∧
    (∀ data, ListNamespaces c http unmarshal = .ok data →
      status = 200 ∧ ∃ env, unmarshal body = .ok env ∧ env.Code = 200 ∧ env.Data = data) := by
  refine ⟨?_, ?_, ?_, ?_, ?_⟩
  · intro hs
    simp [ListNamespaces, hx, hs]
  · intro e hs hu
    simp [ListNamespaces, hx, hs, hu]
  · intro env hs hu hcode
    simp [ListNamespaces, hx, hs, hu, hcode]
  · intro env hs hu hcode
    simp [ListNamespaces, hx, hs, hu, hcode]
  · intro data h
    by_cases hs : status = 200
    · cases hu : unmarshal body with
      | error e => simp [ListNamespaces, hx, hs, hu] at h
      | ok env =>
        by_cases hcode : env.Code = 200
        · simp [ListNamespaces, hx, hs, hu, hcode] at h
          exact ⟨hs, env, rfl, hcode, h⟩
        · simp [ListNamespaces, hx, hs, hu, hcode] at h
    · simp [ListNamespaces, hx, hs] at h

/-- C15 at a response with status 200 whose envelope has code 500. -/
theorem envelope_code_500_is_error :
    ListNamespaces sampleClient (fixedTransport 200 "body".toList)
        (fun _ => .ok ⟨500, "server busy".toList, []⟩) =
      .error (.apiFailed "server busy".toList) ∧
    ListNamespaces sampleClient (fixedTransport 200 "body".toList)
        (fun _ => .ok ⟨200, "ok".toList, [⟨"dev".toList, "Dev".toList, [], 200, 3, 2⟩]⟩) =
      .ok [⟨"dev".toList, "Dev".toList, [], 200, 3, 2⟩] :=
  ⟨(listNamespaces_checks_both_layers sampleClient (fixedTransport 200 "body".toList)
      (fun _ => .ok ⟨500, "server busy".toList, []⟩) 200 "body".toList rfl).2.2.1
      ⟨500, "server busy".toList, []⟩ rfl rfl (by decide),
   (listNamespaces_checks_both_layers sampleClient (fixedTransport 200 "body".toList)
      (fun _ => .ok ⟨200, "ok".toList, [⟨"dev".toList, "Dev".toList, [], 200, 3, 2⟩]⟩)
      200 "body".toList rfl).2.2.2.1
      ⟨200, "ok".toList, [⟨"dev".toList, "Dev".toList, [], 200, 3, 2⟩]⟩ rfl rfl rfl⟩

/-! ## C16: the User-Agent header -/

/-- C16 fails on three operations.  The requests of `GetConfig`,
`PublishConfig` and `DeleteConfig` carry no User-Agent header, whatever the
client and the arguments; the requests of `Login`, `ListConfigs`,
`ListNamespaces`, `CreateNamespace` and `DeleteNamespace` carry the value
`nacos-cli`. -/
theorem user_agent_not_on_config_requests :
    (getConfigRequest sampleClient "app.yaml".toList "DEFAULT_GROUP".toList).headerValue
        "User-Agent".toList = none ∧
    (publishConfigRequest sampleClient
        ⟨"app.yaml".toList, "DEFAULT_GROUP".toList, "a: 1".toList, []⟩).headerValue
        "User-Agent".toList = none ∧
    (deleteConfigRequest sampleClient "app.yaml".toList "DEFAULT_GROUP".toList).headerValue
        "User-Agent".toList = none ∧
    (∀ (c : Client) (dataID group : Str),
      (getConfigRequest c dataID group).headerValue "User-Agent".toList = none ∧
      (deleteConfigRequest c dataID group).headerValue "User-Agent".toList = none) ∧
    (∀ (c : Client) (config : Config),
      (publishConfigRequest c config).headerValue "User-Agent".toList = none) ∧
    (∀ (c : Client) (pageNo pageSize : Int) (id name desc : Str),
      (loginRequest c).headerValue "User-Agent".toList = some "nacos-cli".toList ∧
      (listConfigsRequest c pageNo pageSize).headerValue "User-Agent".toList =
        some "nacos-cli".toList ∧
      (listNamespacesRequest c).headerValue "User-Agent".toList = some "nacos-cli".toList ∧
      (createNamespaceRequest c id name desc).headerValue "User-Agent".toList =
        some "nacos-cli".toList ∧
      (deleteNamespaceRequest c id).headerValue "User-Agent".toList =
        some "nacos-cli".toList) := by
  refine ⟨by decide, by decide, by decide, ?_, ?_, ?_⟩
  · intro c dataID group
    by_cases h : c.Token = [] <;>
      simp [getConfigRequest, deleteConfigRequest, Request.headerValue, bearerHeader, h,
        List.find?]
  · intro c config
    by_cases h : c.Token = [] <;>
      simp [publishConfigRequest, Request.headerValue, bearerHeader, h, List.find?]
  · intro c pageNo pageSize id name desc
    simp [loginRequest, listConfigsRequest, listNamespacesRequest, createNamespaceRequest,
      deleteNamespaceRequest, Request.headerValue, List.find?]

/-! ## C17: header stripping is idempotent -/

theorem Split_no_sep (sep : Char) (s : Str) : ∀ l ∈ Split sep s, sep ∉ l := by
  induction s with
  | nil => simp [Split]
  | cons c cs ih =>
    by_cases hc : c = sep
    · intro l hl
      simp only [Split, hc, if_true, List.mem_cons] at hl
      rcases hl with e | m
      · simp [e]
      · exact ih l m
    · obtain ⟨x, xs, hx⟩ := List.exists_cons_of_ne_nil (Split_ne_nil sep cs)
      have h1 : Split sep (c :: cs) = (c :: x) :: xs := by simp [Split, hc, hx]
      intro l hl
      rw [h1] at hl
      rw [hx] at ih
      rcases List.mem_cons.mp hl with e | m
      · rw [e]
        intro hm
        rcases List.mem_cons.mp hm with e2 | m2
        · exact hc e2.symm
        · exact ih x (by simp) m2
      · exact ih l (List.mem_cons_of_mem _ m)

/-- The lines of a text are all header lines, or a run of header lines comes
before a first line that ends the header. -/
theorem header_run (ls : List Str) :
    (∀ l ∈ ls, endsHeader l = false) ∨
    ∃ hdr l rest, ls = hdr ++ l :: rest ∧ (∀ h ∈ hdr, endsHeader h = false) ∧
      endsHeader l = true := by
  induction ls with
  | nil => exact Or.inl (by simp)
  | cons x xs ih =>
    cases hx : endsHeader x with
    | true => exact Or.inr ⟨[], x, xs, rfl, by simp, hx⟩
    | false =>
      rcases ih with h | ⟨hdr, l, rest, h1, h2, h3⟩
      · left
        intro l hl
        rcases List.mem_cons.mp hl with e | m
        · rw [e]; exact hx
        · exact h l m
      · right
        refine ⟨x :: hdr, l, rest, by simp [h1], ?_, h3⟩
        intro h hh
        rcases List.mem_cons.mp hh with e | m
        · rw [e]; exact hx
        · exact h2 h m

theorem firstLine_Join (l : Str) (rest : List Str) (hl : '\n' ∉ l) :
    firstLine (Join '\n' (l :: rest)) = l := by
  have hall : ∀ c ∈ l, (fun c => c != '\n') c = true := by
    intro c hc
    have : c ≠ '\n' := fun e => hl (e ▸ hc)
    simp [this]
  cases rest with
  | nil =>
    simp only [Join, firstLine]
    exact List.takeWhile_eq_self_iff.mpr hall
  | cons m ms =>
    rw [Join_cons_cons]
    unfold firstLine
    rw [List.takeWhile_append_of_pos hall]
    simp [List.takeWhile]

/-- C17: for every file body, the header scan of `importSingleFile` applied to
its own output returns that output unchanged. -/
theorem cleanContent_idempotent (body : Str) :
    cleanContent (cleanContent body) = cleanContent body := by
  rcases header_run (Split '\n' body) with h | ⟨hdr, l, rest, h1, h2, h3⟩
  · have h0 : scanStartLine 0 (Split '\n' body) = 0 := scanStartLine_all _ h 0
    have hb : cleanContent body = body := by
      simp only [cleanContent, h0, List.drop_zero]
      exact Join_Split _ _
    rw [hb, hb]
  · have hs : scanStartLine 0 (Split '\n' body) = hdr.length := by
      rw [h1, scanStartLine_skip hdr h2 l h3 rest 0]
      simp
    have hb : cleanContent body = Join '\n' (l :: rest) := by
      simp only [cleanContent]
      rw [hs, h1, List.drop_left]
    have hl : '\n' ∉ l := Split_no_sep '\n' body l (by rw [h1]; simp)
    rw [hb]
    exact cleanContent_of_firstLine _ (by rw [firstLine_Join l rest hl]; exact h3)

end NacosCli
